import Mathlib

/-!
Verification development for the Digital Twin scheduler.

The definitions below are a shallow embedding of the planning pipeline:
`dt/jobs.py` (job-spec parsing), `dt/policy/resilient.py`,
`dt/policy/cvar.py` and the `/plan` endpoint of `dt/api.py`.
Python floats are modelled as rationals (`ℚ`), Python ints as `ℤ`,
JSON values as the inductive `JVal`, and the collaborators that live
outside the embedded files (state store, predictive simulator,
resiliency scorer, cluster manager) as records of oracle functions,
so every theorem quantifies over their behaviour.
-/

/-- A JSON-like value as produced by `request.get_json` and consumed by
`parse_job_spec`.  Objects are insertion-ordered key/value lists, as in
Python dicts.  Numbers are modelled as rationals. -/
inductive JVal where
  | null
  | bool (b : Bool)
  | num (q : ℚ)
  | str (s : String)
  | arr (xs : List JVal)
  | obj (kvs : List (String × JVal))

/-- Python truthiness for a `JVal`. -/
def jvTruthy : JVal → Bool
  | .null => false
  | .bool b => b
  | .num q => q != 0
  | .str s => s != ""
  | .arr xs => !xs.isEmpty
  | .obj kvs => !kvs.isEmpty

/-- Lookup in an insertion-ordered dict. -/
def dictLookup (k : String) : List (String × α) → Option α
  | [] => none
  | (k', v) :: rest => if k' = k then some v else dictLookup k rest

/-- Python dict assignment `d[k] = v`: replace in place, else append. -/
def dictInsert (k : String) (v : α) : List (String × α) → List (String × α)
  | [] => [(k, v)]
  | (k', v') :: rest =>
      if k' = k then (k, v) :: rest else (k', v') :: dictInsert k v rest

/-- Python `d.get(k) or dflt`: the stored value when present and truthy,
else the default. -/
def pyGetOr (kvs : List (String × JVal)) (k : String) (dflt : JVal) : JVal :=
  match dictLookup k kvs with
  | some v => if jvTruthy v then v else dflt
  | none => dflt

/-- Python `d.get(k, dflt)` (returns the stored value even if falsy). -/
def pyGetD (kvs : List (String × JVal)) (k : String) (dflt : JVal) : JVal :=
  (dictLookup k kvs).getD dflt

/-- Python `d.get(k)` (missing key gives `None`). -/
def pyGet (kvs : List (String × JVal)) (k : String) : JVal :=
  pyGetD kvs k .null

/-- Errors raised while handling a plan request.  `jobSpecError` models
`dt.jobs.JobSpecError`; `otherError` models any exception that is not a
`JobSpecError` (`TypeError`, `ValueError`, `AttributeError`), which the
`/plan` handler does not catch. -/
inductive ParseErr where
  | jobSpecError (msg : String)
  | otherError
deriving DecidableEq

/-- Using a value as a Python dict (`.get`, `in`): only actual objects
qualify; anything else raises (modelled as `otherError`; the special
behaviour of `in` on strings is collapsed into the same error). -/
def asObjKvs : JVal → Except ParseErr (List (String × JVal))
  | .obj kvs => .ok kvs
  | _ => .error .otherError

/-- Python `list(v)`: lists iterate to themselves, strings to their
characters, dicts to their keys; other types raise `TypeError`. -/
def pyList : JVal → Except ParseErr (List JVal)
  | .arr xs => .ok xs
  | .str s => .ok (s.data.map fun c => .str (String.singleton c))
  | .obj kvs => .ok (kvs.map fun kv => .str kv.1)
  | _ => .error .otherError

/-- Truncation toward zero, as Python `int(float)`. -/
def ratTrunc (q : ℚ) : ℤ :=
  if q < 0 then ⌈q⌉ else ⌊q⌋

/-- Python `int(v)` on a parsed JSON value. -/
def pyInt : JVal → Except ParseErr ℤ
  | .num q => .ok (ratTrunc q)
  | .bool b => .ok (if b then 1 else 0)
  | .str s =>
      match s.toInt? with
      | some n => .ok n
      | none => .error .otherError
  | _ => .error .otherError

mutual

/-- Python `str(v)` on a parsed JSON value (container rendering is a
simplified repr; no embedded code depends on it). -/
def pyStr : JVal → String
  | .null => "None"
  | .bool true => "True"
  | .bool false => "False"
  | .str s => s
  | .num q => if q.den = 1 then toString q.num else toString q
  | .arr xs => "[" ++ pyStrList xs ++ "]"
  | .obj kvs => "\x7b" ++ pyStrObj kvs ++ "\x7d"

/-- Comma-joined rendering of a JSON array's elements. -/
def pyStrList : List JVal → String
  | [] => ""
  | [x] => pyStr x
  | x :: y :: rest => pyStr x ++ ", " ++ pyStrList (y :: rest)

/-- Comma-joined rendering of a JSON object's entries. -/
def pyStrObj : List (String × JVal) → String
  | [] => ""
  | [(k, v)] => k ++ ": " ++ pyStr v
  | (k, v) :: e :: rest => k ++ ": " ++ pyStr v ++ ", " ++ pyStrObj (e :: rest)

end

/-- `dt.jobs._require`: the key must be present and not `None`/`""`. -/
def require (key : String) (payload : List (String × JVal)) : Except ParseErr JVal :=
  match dictLookup key payload with
  | none => .error (.jobSpecError ("missing required field: " ++ key))
  | some .null => .error (.jobSpecError ("missing required field: " ++ key))
  | some (.str "") => .error (.jobSpecError ("missing required field: " ++ key))
  | some v => .ok v

/-- `dt.state.StageCompute` as populated by the parser. -/
structure StageCompute where
  cpu : ℤ
  mem_gb : ℤ
  duration_ms : ℤ
  gpu_vram_gb : ℤ
  workload_type : String

/-- `dt.state.StageConstraints` as populated by the parser; fields the
embedded policies never inspect keep their raw JSON values. -/
structure StageConstraints where
  arch : List JVal
  formats : List JVal
  data_locality : JVal
  max_latency_to_predecessor_ms : JVal

/-- `dt.state.JobStage`.  `predecessor` keeps the raw `.get` result. -/
structure JobStage where
  id : String
  compute : StageCompute
  constraints : StageConstraints
  predecessor : JVal

/-- `dt.state.JobOrigin`. -/
structure JobOrigin where
  cluster : String
  node : JVal

/-- `dt.state.Job`. -/
structure Job where
  name : String
  deadline_ms : ℤ
  stages : List JobStage
  origin : Option JobOrigin

/-- The origin block of `parse_job_spec`: `metadata.get("origin") or {}`,
then a `JobOrigin` when truthy, with cluster defaulting to `"dc-core"`. -/
def parseOrigin (metadata : List (String × JVal)) : Except ParseErr (Option JobOrigin) :=
  let origin_data := pyGetOr metadata "origin" (.obj [])
  if jvTruthy origin_data then do
    let okvs ← asObjKvs origin_data
    pure (some { cluster := pyStr (pyGetD okvs "cluster" (.str "dc-core")), node := pyGet okvs "node" })
  else
    pure none

/-- The per-stage body of the loop in `parse_job_spec`. -/
def parseStage (stage_spec : JVal) : Except ParseErr JobStage := do
  let skvs ← asObjKvs stage_spec
  let idV ← require "id" skvs
  let compute_spec ← asObjKvs (pyGetOr skvs "compute" (.obj []))
  let constraints_spec ← asObjKvs (pyGetOr skvs "constraints" (.obj []))
  let cpu ← pyInt (pyGetD compute_spec "cpu" (.num 0))
  let mem_gb ← pyInt (pyGetD compute_spec "mem_gb" (.num 0))
  let duration_ms ← pyInt (pyGetD compute_spec "duration_ms" (.num 0))
  let gpu_vram_gb ← pyInt (pyGetD compute_spec "gpu_vram_gb" (.num 0))
  let workload_type := pyStr (pyGetD compute_spec "workload_type" (.str "cpu_bound"))
  let arch ← pyList (pyGetD constraints_spec "arch" (.arr [.str "amd64"]))
  let formats ← pyList (pyGetD constraints_spec "formats" (.arr [.str "native"]))
  pure
    { id := pyStr idV
      compute :=
        { cpu := cpu, mem_gb := mem_gb, duration_ms := duration_ms
          gpu_vram_gb := gpu_vram_gb, workload_type := workload_type }
      constraints :=
        { arch := arch, formats := formats
          data_locality := pyGet constraints_spec "data_locality"
          max_latency_to_predecessor_ms := pyGet constraints_spec "max_latency_to_predecessor_ms" }
      predecessor := pyGet skvs "predecessor" }

/-- `dt.jobs.parse_job_spec`. -/
def parse_job_spec (job_spec : JVal) : Except ParseErr Job :=
  match job_spec with
  | .obj kvs => do
      let metadata := pyGetOr kvs "metadata" (.obj [])
      let specKvs ← asObjKvs (pyGetOr kvs "spec" (.obj []))
      let stages_spec ← pyList (pyGetOr specKvs "stages" (.arr []))
      if stages_spec.isEmpty then
        .error (.jobSpecError "job spec must include at least one stage")
      else do
        let mkvs ← asObjKvs metadata
        let nameV ← require "name" mkvs
        let deadline_ms ← pyInt (pyGetD mkvs "deadline_ms" (.num 60000))
        let origin ← parseOrigin mkvs
        let stages ← stages_spec.mapM parseStage
        pure { name := pyStr nameV, deadline_ms := deadline_ms, stages := stages, origin := origin }
  | _ => .error (.jobSpecError "job spec must be an object")

/-- The `hardware` block of `dt.state.Node` (only the field the embedded
policies read). -/
structure Hardware where
  gpu_vram_gb : ℚ

/-- The `k8s` block of `dt.state.Node`. -/
structure K8s where
  allocatable_cpu : ℚ
  allocatable_mem_gb : ℚ

/-- The `tel` telemetry block of `dt.state.Node`. -/
structure Telemetry where
  cpu_util : ℚ
  mem_util : ℚ

/-- `dt.state.Node` restricted to the fields the embedded code reads.
`tel` is optional because the policies guard on its truthiness. -/
structure Node where
  name : String
  available : Bool
  hardware : Hardware
  k8s : K8s
  tel : Option Telemetry

/-- A placement decision `(stage_id, node_name, exec_format)`. -/
structure PlacementDecision where
  stage_id : String
  node_name : String
  exec_format : String
deriving DecidableEq

/-- The metrics record returned by `PredictiveSimulator.score_plan`. -/
structure PlanMetrics where
  latency_ms : ℚ
  energy_kwh : ℚ
  risk_score : ℚ

/-- The snapshot of `dt.state.DTState` a single policy invocation sees:
the node list plus the lookup functions the policies call. -/
structure DTState where
  nodes : List Node
  get_cluster : String → Option String
  get_node : String → Option Node

/-- `dt.cluster_manager.ClusterManager` as an oracle: only
`get_latency_between(cluster_a, cluster_b, node_a, node_b)` is called. -/
structure ClusterManager where
  get_latency_between : String → String → JVal → String → ℚ

/-- `dt.predict.PredictiveSimulator` as an oracle over the operations the
policies invoke. -/
structure Sim where
  choose_exec_format : JobStage → Node → String
  compute_stage_latency_ms : JobStage → Node → String → ℚ
  compute_network_delay_ms : Node → Node → ℚ
  score_plan : Job → List (String × PlacementDecision) → PlanMetrics

/-- The collaborators a policy object holds: the simulator, the
resiliency scorer (`ResiliencyScorer.compute_node_score`) and the
optional cluster manager. -/
structure Oracles where
  sim : Sim
  resiliency : String → ℚ
  cm : Option ClusterManager

/-- Placement mappings are insertion-ordered dicts keyed by stage id. -/
abbrev Placements := List (String × PlacementDecision)

/-- Weight configuration of `ResilientPolicy` after `__init__`. -/
structure ResilientWeights where
  capacity_weight : ℚ
  resiliency_weight : ℚ
  utilization_weight : ℚ

/-- `ResilientPolicy.__init__`: normalise the weights unless they already
sum to 1 (`math.isclose` is modelled as exact equality on `ℚ`; Python
float division by a zero total, which would produce infinities, is out
of the modelled domain and mapped to `ℚ`'s total division). -/
def resilientNormWeights (capacity_weight resiliency_weight utilization_weight : ℚ) :
    ResilientWeights :=
  let total := capacity_weight + resiliency_weight + utilization_weight
  if total = 1 then
    ⟨capacity_weight, resiliency_weight, utilization_weight⟩
  else
    ⟨capacity_weight / total, resiliency_weight / total, utilization_weight / total⟩

/-- The default weights `(0.3, 0.5, 0.2)` used by `select_policy`. -/
def defaultResilientWeights : ResilientWeights :=
  resilientNormWeights (3/10) (5/10) (2/10)

/-- `ResilientPolicy._candidate_nodes`: available nodes that pass the
GPU, allocatable-cpu and allocatable-mem gates. -/
def resilientCandidateNodes (st : DTState) (stage : JobStage) : List Node :=
  st.nodes.filter fun node =>
    node.available
    && !(decide (0 < stage.compute.gpu_vram_gb)
          && decide (node.hardware.gpu_vram_gb < (stage.compute.gpu_vram_gb : ℚ)))
    && decide ((stage.compute.cpu : ℚ) ≤ node.k8s.allocatable_cpu)
    && decide ((stage.compute.mem_gb : ℚ) ≤ node.k8s.allocatable_mem_gb)

/-- `_compute_origin_latency`, identical in `ResilientPolicy` and
`RiskAwareCvarPolicy`: zero without an origin or a cluster manager or a
cluster for the candidate node, else the cluster-manager lookup. -/
def compute_origin_latency (o : Oracles) (st : DTState) (job : Job) (candidate_node : Node) : ℚ :=
  match job.origin, o.cm with
  | some origin, some cm =>
      match st.get_cluster candidate_node.name with
      | some candidate_cluster =>
          cm.get_latency_between origin.cluster candidate_cluster origin.node candidate_node.name
      | none => 0
  | _, _ => 0

/-- `ResilientPolicy._score_capacity_fit`. -/
def score_capacity_fit (stage : JobStage) (node : Node) : ℚ :=
  if node.k8s.allocatable_cpu ≤ 0 ∨ node.k8s.allocatable_mem_gb ≤ 0 then 0
  else
    max 0 (min (1 - (stage.compute.cpu : ℚ) / node.k8s.allocatable_cpu)
               (1 - (stage.compute.mem_gb : ℚ) / node.k8s.allocatable_mem_gb))

/-- `ResilientPolicy._utilization_score`. -/
def utilization_score (node : Node) : ℚ :=
  let util := match node.tel with
    | some t => max t.cpu_util t.mem_util / 100
    | none => 0
  max 0 (1 - util)

/-- Python `stage.predecessor in prev_node_for` for a dict keyed by stage
ids: only a string predecessor can match. -/
def predLookup (pred : JVal) (prev_node_for : List (String × Node)) : Option Node :=
  match pred with
  | .str s => dictLookup s prev_node_for
  | _ => none

/-- Stage latency plus the network delay from a placed predecessor, as
accumulated inside `ResilientPolicy.place` before the origin term. -/
def resilientPredLatency (o : Oracles) (stage : JobStage) (prev_node_for : List (String × Node))
    (node : Node) (exec_format : String) : ℚ :=
  let latency_ms := o.sim.compute_stage_latency_ms stage node exec_format
  if jvTruthy stage.predecessor then
    match predLookup stage.predecessor prev_node_for with
    | some prev_node => latency_ms + o.sim.compute_network_delay_ms prev_node node
    | none => latency_ms
  else latency_ms

/-- The full latency term of `ResilientPolicy.place`: predecessor part
plus the origin delay for stages with a falsy predecessor. -/
def resilientStageLatency (o : Oracles) (st : DTState) (job : Job) (stage : JobStage)
    (prev_node_for : List (String × Node)) (node : Node) (exec_format : String) : ℚ :=
  let latency_ms := resilientPredLatency o stage prev_node_for node exec_format
  if !jvTruthy stage.predecessor && job.origin.isSome then
    latency_ms + compute_origin_latency o st job node
  else latency_ms

/-- The composite score of one candidate inside `ResilientPolicy.place`. -/
def resilientComposite (o : Oracles) (st : DTState) (w : ResilientWeights) (job : Job)
    (stage : JobStage) (prev_node_for : List (String × Node)) (node : Node) : ℚ :=
  let exec_format := o.sim.choose_exec_format stage node
  let latency_ms := resilientStageLatency o st job stage prev_node_for node exec_format
  w.capacity_weight * score_capacity_fit stage node
    + w.resiliency_weight * o.resiliency node.name
    + w.utilization_weight * utilization_score node
    - (1/1000) * latency_ms

/-- The argmax loop shared by `ResilientPolicy.place`: best-so-far with
strict improvement (`composite > best_score`), starting from `-inf` so
the first candidate always wins. -/
def pickBestAux (score : α → ℚ) : List α → Option (α × ℚ) → Option (α × ℚ)
  | [], best => best
  | x :: rest, best =>
      match best with
      | none => pickBestAux score rest (some (x, score x))
      | some (b, bs) =>
          if bs < score x then pickBestAux score rest (some (x, score x))
          else pickBestAux score rest (some (b, bs))

/-- First strict maximum of `score` over a list. -/
def pickBest (score : α → ℚ) (xs : List α) : Option (α × ℚ) :=
  pickBestAux score xs none

/-- The inner candidate loop of `ResilientPolicy.place` for one stage:
the best node together with its exec format. -/
def resilientSelectStage (o : Oracles) (st : DTState) (w : ResilientWeights) (job : Job)
    (prev_node_for : List (String × Node)) (stage : JobStage) : Option (Node × String) :=
  (pickBest (resilientComposite o st w job stage prev_node_for)
      (resilientCandidateNodes st stage)).map
    fun p => (p.1, o.sim.choose_exec_format stage p.1)

/-- The stage loop of `ResilientPolicy.place`: infeasible stages are
dropped (logged in the source), placed stages update `placements` and
`prev_node_for`. -/
def resilientPlaceAux (o : Oracles) (st : DTState) (w : ResilientWeights) (job : Job) :
    List JobStage → Placements → List (String × Node) → Placements
  | [], placements, _ => placements
  | stage :: rest, placements, prev_node_for =>
      match resilientSelectStage o st w job prev_node_for stage with
      | none => resilientPlaceAux o st w job rest placements prev_node_for
      | some (node, fmt) =>
          resilientPlaceAux o st w job rest
            (dictInsert stage.id ⟨stage.id, node.name, fmt⟩ placements)
            (dictInsert stage.id node prev_node_for)

/-- `ResilientPolicy.place`. -/
def resilientPlace (o : Oracles) (st : DTState) (w : ResilientWeights) (job : Job) : Placements :=
  resilientPlaceAux o st w job job.stages [] []

/-- `RiskAwareCvarPolicy._candidate_nodes`: every available node, with no
allocatable-cpu/mem gate. -/
def cvarCandidateNodes (st : DTState) (_stage : JobStage) : List Node :=
  st.nodes.filter fun n => n.available

/-- `np.quantile(xs, alpha)` with the default linear interpolation:
`h = alpha*(n-1)`, result `s[⌊h⌋] + (h-⌊h⌋)·(s[⌊h⌋+1] - s[⌊h⌋])` over the
ascending sort `s`. -/
def npQuantile (xs : List ℚ) (alpha : ℚ) : ℚ :=
  let s := List.insertionSort (· ≤ ·) xs
  match s with
  | [] => 0
  | _ :: _ =>
    let n := s.length
    let h : ℚ := alpha * ((n : ℚ) - 1)
    let i : ℤ := ⌊h⌋
    let g : ℚ := h - (i : ℚ)
    let lo := s.getD i.toNat 0
    let hi := s.getD (i.toNat + 1) lo
    lo + g * (hi - lo)

/-- The tail statistic of `RiskAwareCvarPolicy._sample_cost`: the
`alpha`-quantile `q`, then the mean of the samples `≥ q` when that set
is non-empty, else `q`. -/
def cvarOf (alpha : ℚ) (samples : List ℚ) : ℚ :=
  let q := npQuantile samples alpha
  let tail := samples.filter fun s => decide (q ≤ s)
  if tail.isEmpty then q else tail.sum / (tail.length : ℚ)

/-- The origin-latency term of `_sample_cost`: present only when the job
has an origin and stages, looked up from the *first* stage's placement. -/
def cvarOriginLat (o : Oracles) (st : DTState) (job : Job) (placements : Placements) : ℚ :=
  match job.origin, job.stages with
  | some _, first_stage :: _ =>
      match dictLookup first_stage.id placements with
      | some decision =>
          match st.get_node decision.node_name with
          | some node => compute_origin_latency o st job node
          | none => 0
      | none => 0
  | _, _ => 0

/-- `RiskAwareCvarPolicy._sample_cost` with the default `runs = 16`:
each sample is `(score_plan latency + origin latency) · noise_k`.  The
RNG is the stream `noise` read at indices `idx, idx+1, …, idx+15`; the
plan score and origin latency are loop-invariant in the source. -/
def cvarSampleCost (o : Oracles) (st : DTState) (alpha : ℚ) (noise : ℕ → ℚ) (idx : ℕ)
    (job : Job) (placements : Placements) : ℚ :=
  let samples := (List.range 16).map fun k =>
    ((o.sim.score_plan job placements).latency_ms + cvarOriginLat o st job placements)
      * noise (idx + k)
  cvarOf alpha samples

/-- The decision built for one CVaR candidate. -/
def cvarDecision (o : Oracles) (stage : JobStage) (node : Node) : PlacementDecision :=
  ⟨stage.id, node.name, o.sim.choose_exec_format stage node⟩

/-- The candidate loop body of `RiskAwareCvarPolicy.place` for one stage,
as the list of `(decision, adjusted CVaR)` pairs: GPU-infeasible
candidates are skipped (consuming no RNG draws), every other candidate
consumes 16 draws starting at its running index. -/
def cvarScored (o : Oracles) (st : DTState) (alpha risk_weight : ℚ) (noise : ℕ → ℚ)
    (job : Job) (placements : Placements) (stage : JobStage) :
    List Node → ℕ → List (PlacementDecision × ℚ)
  | [], _ => []
  | node :: rest, idx =>
      if 0 < stage.compute.gpu_vram_gb ∧ node.hardware.gpu_vram_gb < (stage.compute.gpu_vram_gb : ℚ) then
        cvarScored o st alpha risk_weight noise job placements stage rest idx
      else
        let dec := cvarDecision o stage node
        let candidate_plan := dictInsert stage.id dec placements
        let cvar := cvarSampleCost o st alpha noise idx job candidate_plan
        let adjusted := cvar * (1 + risk_weight * (1 - o.resiliency node.name))
        (dec, adjusted) :: cvarScored o st alpha risk_weight noise job placements stage rest (idx + 16)

/-- The argmin loop of `RiskAwareCvarPolicy.place`: best-so-far with
strict improvement (`adjusted_cvar < best_cvar`), starting from `+inf`
so the first candidate always wins. -/
def pickMinAux : List (α × ℚ) → Option (α × ℚ) → Option (α × ℚ)
  | [], best => best
  | (x, c) :: rest, best =>
      match best with
      | none => pickMinAux rest (some (x, c))
      | some (b, bc) =>
          if c < bc then pickMinAux rest (some (x, c))
          else pickMinAux rest (some (b, bc))

/-- First strict minimum of a scored list. -/
def pickMinStrict (xs : List (α × ℚ)) : Option (α × ℚ) :=
  pickMinAux xs none

/-- One stage of `RiskAwareCvarPolicy.place`: the decision with minimal
adjusted CVaR over the scored candidates, and the advanced RNG index. -/
def cvarSelectStage (o : Oracles) (st : DTState) (alpha risk_weight : ℚ) (noise : ℕ → ℚ)
    (job : Job) (placements : Placements) (stage : JobStage) (idx : ℕ) :
    Option PlacementDecision × ℕ :=
  let scored := cvarScored o st alpha risk_weight noise job placements stage
    (cvarCandidateNodes st stage) idx
  ((pickMinStrict scored).map Prod.fst, idx + 16 * scored.length)

/-- The stage loop of `RiskAwareCvarPolicy.place`. -/
def cvarPlaceAux (o : Oracles) (st : DTState) (alpha risk_weight : ℚ) (noise : ℕ → ℚ)
    (job : Job) : List JobStage → Placements → ℕ → Placements
  | [], placements, _ => placements
  | stage :: rest, placements, idx =>
      match cvarSelectStage o st alpha risk_weight noise job placements stage idx with
      | (some dec, idx') =>
          cvarPlaceAux o st alpha risk_weight noise job rest
            (dictInsert stage.id dec placements) idx'
      | (none, idx') => cvarPlaceAux o st alpha risk_weight noise job rest placements idx'

/-- `RiskAwareCvarPolicy.place`, with the RNG modelled as the stream of
log-normal draws produced by the seeded generator, starting at index 0. -/
def cvarPlace (o : Oracles) (st : DTState) (alpha risk_weight : ℚ) (noise : ℕ → ℚ)
    (job : Job) : Placements :=
  cvarPlaceAux o st alpha risk_weight noise job job.stages [] 0

/-- Modelled from the spec: `GreedyLatencyPolicy` (src/dt/policy/greedy.py
is not under src/).  Spec §4.5: the greedy policy uses the same candidate
gates as the resilient policy (available, GPU, allocatable cpu/mem). -/
def greedyCandidateNodes (st : DTState) (stage : JobStage) : List Node :=
  resilientCandidateNodes st stage

/-- Modelled from the spec: the greedy score (spec §4.6) — stage latency
plus network delay from the predecessor plus origin latency for the
first stage. -/
def greedyScore (o : Oracles) (st : DTState) (job : Job) (stage : JobStage)
    (prev_node_for : List (String × Node)) (first_stage : Bool) (node : Node) : ℚ :=
  let exec_format := o.sim.choose_exec_format stage node
  let latency_ms := o.sim.compute_stage_latency_ms stage node exec_format
  let latency_ms :=
    match predLookup stage.predecessor prev_node_for with
    | some prev_node => latency_ms + o.sim.compute_network_delay_ms prev_node node
    | none => latency_ms
  if first_stage then latency_ms + compute_origin_latency o st job node else latency_ms

/-- Modelled from the spec: greedy argmin with lexicographic node-name
tie-break (spec §4.6). -/
def greedyPickAux (score : Node → ℚ) : List Node → Option (Node × ℚ) → Option (Node × ℚ)
  | [], best => best
  | n :: rest, best =>
      match best with
      | none => greedyPickAux score rest (some (n, score n))
      | some (b, bs) =>
          if score n < bs ∨ (score n = bs ∧ n.name < b.name) then
            greedyPickAux score rest (some (n, score n))
          else greedyPickAux score rest (some (b, bs))

/-- Modelled from the spec: the stage loop of `GreedyLatencyPolicy.place`
(drops infeasible stages like the other policies, spec §4.5). -/
def greedyPlaceAux (o : Oracles) (st : DTState) (job : Job) :
    List JobStage → Bool → Placements → List (String × Node) → Placements
  | [], _, placements, _ => placements
  | stage :: rest, first_stage, placements, prev_node_for =>
      match greedyPickAux (greedyScore o st job stage prev_node_for first_stage)
          (greedyCandidateNodes st stage) none with
      | none => greedyPlaceAux o st job rest false placements prev_node_for
      | some (node, _) =>
          greedyPlaceAux o st job rest false
            (dictInsert stage.id ⟨stage.id, node.name, o.sim.choose_exec_format stage node⟩ placements)
            (dictInsert stage.id node prev_node_for)

/-- Modelled from the spec: `GreedyLatencyPolicy.place`. -/
def greedyPlace (o : Oracles) (st : DTState) (job : Job) : Placements :=
  greedyPlaceAux o st job job.stages true [] []

/-- The HTTP-level outcome of the `/plan` endpoint: a 400 response with
an error message (and, for placement failures, the job's stage ids), an
uncaught exception (5xx), or a plan response. -/
inductive PlanResponse where
  | badRequest (msg : String) (stages : List String)
  | serverError
  | ok (plan_id : String) (placements : Placements)
      (predicted_latency_ms predicted_energy_kwh risk_score : ℚ)
      (shadow_plan : List (String × String))

/-- Whether a response is a 4xx client error. -/
def PlanResponse.isClientError : PlanResponse → Bool
  | .badRequest _ _ => true
  | _ => false

/-- `select_policy` + `policy.place(job)` from `dt/api.py`: the lowered
strategy name chooses the policy; resilient uses the default weights
`(0.3, 0.5, 0.2)`, CVaR the defaults `alpha = 0.95`, `risk_weight = 0.6`. -/
def selectPolicyPlace (o : Oracles) (st : DTState) (noise : ℕ → ℚ) (name : String)
    (job : Job) : Placements :=
  if name = "resilient" then resilientPlace o st defaultResilientWeights job
  else if name = "cvar" then cvarPlace o st (95/100) (6/10) noise job
  else greedyPlace o st job

/-- The `/plan` handler of `dt/api.py`.  `seedFn` models `seed_state`
(called only when the state has no nodes); `plan_id` stands for the
generated uuid; `dry_run` only toggles the actuator side effect and
never changes the response, so it is not inspected. -/
def planEndpoint (seedFn : DTState → DTState) (st0 : DTState) (o : Oracles) (noise : ℕ → ℚ)
    (plan_id : String) (body : JVal) : PlanResponse :=
  match body with
  | .obj bkvs =>
      let st := if st0.nodes.isEmpty then seedFn st0 else st0
      let job_spec := pyGet bkvs "job"
      if !jvTruthy job_spec then .badRequest "missing job spec" []
      else
        let strategy := pyGetD bkvs "strategy" (.str "greedy")
        match parse_job_spec job_spec with
        | .error (.jobSpecError msg) => .badRequest msg []
        | .error .otherError => .serverError
        | .ok job =>
            match if jvTruthy strategy then strategy else .str "greedy" with
            | .str sname =>
                let placements := selectPolicyPlace o st noise sname.toLower job
                if placements.isEmpty then
                  .badRequest "no feasible placements found" (job.stages.map (·.id))
                else
                  let metrics := o.sim.score_plan job placements
                  .ok plan_id placements metrics.latency_ms metrics.energy_kwh metrics.risk_score
                    (placements.map fun p => (p.1 ++ "_backup", p.2.node_name))
            | _ => .serverError
      | _ => .serverError

/-! ### Concrete fixtures used by witnesses and counterexamples -/

/-- A node with no telemetry, for concrete scenarios. -/
def mkNode (nm : String) (avail : Bool) (vram cpu mem : ℚ) : Node :=
  ⟨nm, avail, ⟨vram⟩, ⟨cpu, mem⟩, none⟩

/-- A simulator oracle with all-zero estimates. -/
def simZero : Sim :=
  ⟨fun _ _ => "native", fun _ _ _ => 0, fun _ _ => 0, fun _ _ => ⟨0, 0, 0⟩⟩

/-- Oracles without a cluster manager. -/
def oraclesZero : Oracles := ⟨simZero, fun _ => 1/2, none⟩

/-- A cluster manager whose every latency is 500 ms. -/
def cm500 : ClusterManager := ⟨fun _ _ _ _ => 500⟩

/-- Oracles with the 500 ms cluster manager. -/
def oraclesCm : Oracles := ⟨simZero, fun _ => 1/2, some cm500⟩

/-- Two identical available CPU nodes. -/
def stTwoNodes : DTState :=
  ⟨[mkNode "n1" true 0 4 8, mkNode "n2" true 0 4 8], fun _ => none, fun _ => none⟩

/-- One available node that belongs to cluster `dc`. -/
def stOneNodeCluster : DTState :=
  ⟨[mkNode "n1" true 0 4 8], fun _ => some "dc", fun _ => some (mkNode "n1" true 0 4 8)⟩

/-- A job spec with two stages, the second requiring 16 GB of GPU VRAM. -/
def specTwoStage : JVal :=
  .obj [("metadata", .obj [("name", .str "j")]),
    ("spec", .obj [("stages", .arr [.obj [("id", .str "s1")],
      .obj [("id", .str "s2"), ("compute", .obj [("gpu_vram_gb", .num 16)])]])])]

/-- A stage with zero requirements. -/
def stageZero (sid : String) : JobStage :=
  ⟨sid, ⟨0, 0, 0, 0, "cpu_bound"⟩, ⟨[.str "amd64"], [.str "native"], .null, .null⟩, .null⟩

/-- A stage requiring 16 GB of GPU VRAM. -/
def stageGpu16 (sid : String) : JobStage :=
  ⟨sid, ⟨0, 0, 0, 16, "cpu_bound"⟩, ⟨[.str "amd64"], [.str "native"], .null, .null⟩, .null⟩

/-- The parse of `specTwoStage`. -/
def jobTwoStage : Job := ⟨"j", 60000, [stageZero "s1", stageGpu16 "s2"], none⟩

/-- A two-root-stage job with an origin in cluster `edge`. -/
def jobTwoRootsOrigin : Job :=
  ⟨"j", 60000, [stageZero "s1", stageZero "s2"], some ⟨"edge", .null⟩⟩

/-- Clamping to the unit interval, as the spec words "clamped to [0,1]". -/
def clamp01 (x : ℚ) : ℚ := max 0 (min 1 x)

/-- A node with telemetry `(cpu_util, mem_util) = (50, 30)`. -/
def nodeTel : Node := ⟨"nt", true, ⟨0⟩, ⟨4, 8⟩, some ⟨50, 30⟩⟩

/-- A job spec with a single trivial stage. -/
def specOneStage : JVal :=
  .obj [("metadata", .obj [("name", .str "j")]),
    ("spec", .obj [("stages", .arr [.obj [("id", .str "s1")]])])]

/-- The parse of `specOneStage`. -/
def jobOneStage : Job := ⟨"j", 60000, [stageZero "s1"], none⟩

/-- A job spec whose metadata carries an *empty* origin object. -/
def specEmptyOrigin : JVal :=
  .obj [("metadata", .obj [("name", .str "j"), ("origin", .obj [])]),
    ("spec", .obj [("stages", .arr [.obj [("id", .str "s")]])])]

/-- The parse of `specEmptyOrigin`: the empty origin object is falsy, so
the job has no origin at all. -/
def jobEmptyOrigin : Job := ⟨"j", 60000, [stageZero "s"], none⟩

/-- A `/plan` body asking the resilient policy to place `specTwoStage`. -/
def bodyTwoStage : JVal := .obj [("job", specTwoStage), ("strategy", .str "resilient")]

/-- A `/plan` body asking the resilient policy to place `specOneStage`. -/
def bodyOneStage : JVal := .obj [("job", specOneStage), ("strategy", .str "resilient")]

/-- The metadata object of `specWithOrigin`. -/
def metaWithOrigin : List (String × JVal) :=
  [("name", .str "j"), ("origin", .obj [("node", .str "e1")])]

/-- A job spec with a non-empty origin object that omits its cluster. -/
def specWithOrigin : JVal :=
  .obj [("metadata", .obj metaWithOrigin),
    ("spec", .obj [("stages", .arr [.obj [("id", .str "s")]])])]

/-- The parse of `specWithOrigin`: the origin cluster defaults to
`dc-core`. -/
def jobWithOrigin : Job := ⟨"j", 60000, [stageZero "s"], some ⟨"dc-core", .str "e1"⟩⟩

/-- The property claimed of every placement decision a policy returns:
the decision's stage exists in the job and its node is an available node
of the snapshot that satisfies the stage's GPU requirement. -/
def stagePlacedOk (st : DTState) (job : Job) (sid : String) (dec : PlacementDecision) : Prop :=
  ∃ stage ∈ job.stages, stage.id = sid ∧
    ∃ n ∈ st.nodes, n.available = true ∧
      (0 < stage.compute.gpu_vram_gb →
        (stage.compute.gpu_vram_gb : ℚ) ≤ n.hardware.gpu_vram_gb) ∧
      dec.node_name = n.name

/-! ### Generic lemmas about the loop helpers -/

theorem dictLookup_dictInsert (k k' : String) (v : α) (l : List (String × α)) :
    dictLookup k (dictInsert k' v l) = if k' = k then some v else dictLookup k l := by
  induction l with
  | nil => simp [dictInsert, dictLookup]
  | cons hd tl ih =>
      obtain ⟨hk, hv⟩ := hd
      by_cases h1 : hk = k'
      · subst h1
        simp only [dictInsert, if_pos rfl, dictLookup]
        by_cases h2 : hk = k <;> simp [h2]
      · simp only [dictInsert, if_neg h1, dictLookup]
        by_cases h2 : hk = k
        · subst h2
          have : ¬ k' = hk := fun h => h1 h.symm
          simp [this]
        · simp [h2, ih]

theorem pickBestAux_spec (score : α → ℚ) (xs : List α) :
    ∀ acc, (∀ a sa, acc = some (a, sa) → sa = score a) →
    ∀ b s, pickBestAux score xs acc = some (b, s) →
      s = score b ∧ (b ∈ xs ∨ acc = some (b, s)) ∧
        (∀ x ∈ xs, score x ≤ s) ∧ (∀ a sa, acc = some (a, sa) → sa ≤ s) := by
  induction xs with
  | nil =>
      intro acc hacc b s h
      simp only [pickBestAux] at h
      exact ⟨hacc b s h, Or.inr h, by simp, fun a sa ha => by
        rw [ha] at h; cases h; exact le_refl _⟩
  | cons x rest ih =>
      intro acc hacc b s h
      cases acc with
      | none =>
          simp only [pickBestAux] at h
          obtain ⟨h1, h2, h3, h4⟩ := ih (some (x, score x)) (by intro a sa ha; cases ha; rfl) b s h
          refine ⟨h1, ?_, ?_, by intro a sa ha; cases ha⟩
          · rcases h2 with h2 | h2
            · exact Or.inl (List.mem_cons_of_mem _ h2)
            · cases h2; exact Or.inl (List.mem_cons_self _ _)
          · intro y hy
            rcases List.mem_cons.mp hy with rfl | hy
            · exact h4 y (score y) rfl
            · exact h3 y hy
      | some p =>
          obtain ⟨a, sa⟩ := p
          have hsa : sa = score a := hacc a sa rfl
          simp only [pickBestAux] at h
          by_cases hlt : sa < score x
          · rw [if_pos hlt] at h
            obtain ⟨h1, h2, h3, h4⟩ := ih (some (x, score x)) (by intro a' sa' ha'; cases ha'; rfl) b s h
            refine ⟨h1, ?_, ?_, ?_⟩
            · rcases h2 with h2 | h2
              · exact Or.inl (List.mem_cons_of_mem _ h2)
              · cases h2; exact Or.inl (List.mem_cons_self _ _)
            · intro y hy
              rcases List.mem_cons.mp hy with rfl | hy
              · exact h4 y (score y) rfl
              · exact h3 y hy
            · intro a' sa' ha'
              cases ha'
              calc sa ≤ score x := hlt.le
                _ ≤ s := h4 x (score x) rfl
          · rw [if_neg hlt] at h
            obtain ⟨h1, h2, h3, h4⟩ := ih (some (a, sa)) (by intro a' sa' ha'; cases ha'; exact hsa) b s h
            refine ⟨h1, ?_, ?_, ?_⟩
            · rcases h2 with h2 | h2
              · exact Or.inl (List.mem_cons_of_mem _ h2)
              · exact Or.inr h2
            · intro y hy
              rcases List.mem_cons.mp hy with rfl | hy
              · calc score y ≤ sa := not_lt.mp hlt
                  _ ≤ s := h4 a sa rfl
              · exact h3 y hy
            · intro a' sa' ha'
              cases ha'
              exact h4 a sa rfl

theorem pickBest_spec (score : α → ℚ) (xs : List α) (b : α) (s : ℚ)
    (h : pickBest score xs = some (b, s)) :
    s = score b ∧ b ∈ xs ∧ ∀ x ∈ xs, score x ≤ score b := by
  obtain ⟨h1, h2, h3, _⟩ := pickBestAux_spec score xs none (by intro a sa ha; cases ha) b s h
  rcases h2 with h2 | h2
  · exact ⟨h1, h2, fun x hx => h1 ▸ h3 x hx⟩
  · cases h2

theorem pickMinAux_spec (xs : List (α × ℚ)) :
    ∀ acc, ∀ b s, pickMinAux xs acc = some (b, s) →
      ((b, s) ∈ xs ∨ acc = some (b, s)) ∧
        (∀ p ∈ xs, s ≤ p.2) ∧ (∀ a sa, acc = some (a, sa) → s ≤ sa) := by
  induction xs with
  | nil =>
      intro acc b s h
      simp only [pickMinAux] at h
      exact ⟨Or.inr h, by simp, fun a sa ha => by rw [ha] at h; cases h; exact le_refl _⟩
  | cons x rest ih =>
      intro acc b s h
      obtain ⟨xa, xc⟩ := x
      cases acc with
      | none =>
          simp only [pickMinAux] at h
          obtain ⟨h2, h3, h4⟩ := ih (some (xa, xc)) b s h
          refine ⟨?_, ?_, by intro a sa ha; cases ha⟩
          · rcases h2 with h2 | h2
            · exact Or.inl (List.mem_cons_of_mem _ h2)
            · cases h2; exact Or.inl (List.mem_cons_self _ _)
          · intro p hp
            rcases List.mem_cons.mp hp with rfl | hp
            · exact h4 xa xc rfl
            · exact h3 p hp
      | some q =>
          obtain ⟨a, sa⟩ := q
          simp only [pickMinAux] at h
          by_cases hlt : xc < sa
          · rw [if_pos hlt] at h
            obtain ⟨h2, h3, h4⟩ := ih (some (xa, xc)) b s h
            refine ⟨?_, ?_, ?_⟩
            · rcases h2 with h2 | h2
              · exact Or.inl (List.mem_cons_of_mem _ h2)
              · cases h2; exact Or.inl (List.mem_cons_self _ _)
            · intro p hp
              rcases List.mem_cons.mp hp with rfl | hp
              · exact h4 xa xc rfl
              · exact h3 p hp
            · intro a' sa' ha'
              cases ha'
              calc s ≤ xc := h4 xa xc rfl
                _ ≤ sa := hlt.le
          · rw [if_neg hlt] at h
            obtain ⟨h2, h3, h4⟩ := ih (some (a, sa)) b s h
            refine ⟨?_, ?_, ?_⟩
            · rcases h2 with h2 | h2
              · exact Or.inl (List.mem_cons_of_mem _ h2)
              · exact Or.inr h2
            · intro p hp
              rcases List.mem_cons.mp hp with rfl | hp
              · calc s ≤ sa := h4 a sa rfl
                  _ ≤ xc := not_lt.mp hlt
              · exact h3 p hp
            · intro a' sa' ha'
              cases ha'
              exact h4 a sa rfl

theorem pickMinStrict_spec (xs : List (α × ℚ)) (b : α) (s : ℚ)
    (h : pickMinStrict xs = some (b, s)) :
    (b, s) ∈ xs ∧ ∀ p ∈ xs, s ≤ p.2 := by
  obtain ⟨h2, h3, _⟩ := pickMinAux_spec xs none b s h
  rcases h2 with h2 | h2
  · exact ⟨h2, h3⟩
  · cases h2

/-! ### Candidate-set lemmas -/

theorem resilientCandidate_props (st : DTState) (stage : JobStage) (n : Node)
    (h : n ∈ resilientCandidateNodes st stage) :
    n ∈ st.nodes ∧ n.available = true ∧
      (0 < stage.compute.gpu_vram_gb → (stage.compute.gpu_vram_gb : ℚ) ≤ n.hardware.gpu_vram_gb) ∧
      (stage.compute.cpu : ℚ) ≤ n.k8s.allocatable_cpu ∧
      (stage.compute.mem_gb : ℚ) ≤ n.k8s.allocatable_mem_gb := by
  have := List.mem_filter.mp h
  obtain ⟨h1, h2⟩ := this
  simp only [Bool.and_eq_true, Bool.not_eq_true', Bool.and_eq_false_iff,
    decide_eq_true_eq, decide_eq_false_iff_not, not_lt] at h2
  obtain ⟨⟨⟨ha, hg⟩, hc⟩, hm⟩ := h2
  refine ⟨h1, ha, ?_, hc, hm⟩
  intro hgpu
  rcases hg with hg | hg
  · exact absurd hgpu (not_lt.mpr hg)
  · exact hg

theorem resilientCandidate_intro (st : DTState) (stage : JobStage) (n : Node)
    (h1 : n ∈ st.nodes) (h2 : n.available = true)
    (h3 : 0 < stage.compute.gpu_vram_gb → (stage.compute.gpu_vram_gb : ℚ) ≤ n.hardware.gpu_vram_gb)
    (h4 : (stage.compute.cpu : ℚ) ≤ n.k8s.allocatable_cpu)
    (h5 : (stage.compute.mem_gb : ℚ) ≤ n.k8s.allocatable_mem_gb) :
    n ∈ resilientCandidateNodes st stage := by
  refine List.mem_filter.mpr ⟨h1, ?_⟩
  simp only [Bool.and_eq_true, Bool.not_eq_true', Bool.and_eq_false_iff,
    decide_eq_true_eq, decide_eq_false_iff_not, not_lt]
  refine ⟨⟨⟨h2, ?_⟩, h4⟩, h5⟩
  by_cases hgpu : 0 < stage.compute.gpu_vram_gb
  · exact Or.inr (h3 hgpu)
  · exact Or.inl (not_lt.mp hgpu)

theorem cvarCandidate_props (st : DTState) (stage : JobStage) (n : Node) :
    n ∈ cvarCandidateNodes st stage ↔ n ∈ st.nodes ∧ n.available = true := by
  simp [cvarCandidateNodes, List.mem_filter]

/-! ### Selection lemmas -/

theorem resilientSelectStage_mem (o : Oracles) (st : DTState) (w : ResilientWeights)
    (job : Job) (prev : List (String × Node)) (stage : JobStage) (node : Node) (fmt : String)
    (h : resilientSelectStage o st w job prev stage = some (node, fmt)) :
    node ∈ resilientCandidateNodes st stage ∧ fmt = o.sim.choose_exec_format stage node ∧
      ∀ c ∈ resilientCandidateNodes st stage,
        resilientComposite o st w job stage prev c ≤ resilientComposite o st w job stage prev node := by
  unfold resilientSelectStage at h
  cases hp : pickBest (resilientComposite o st w job stage prev) (resilientCandidateNodes st stage) with
  | none => rw [hp] at h; cases h
  | some p =>
      obtain ⟨b, s⟩ := p
      rw [hp] at h
      simp only [Option.map_some'] at h
      have h' := Option.some.inj h
      rw [Prod.mk.injEq] at h'
      obtain ⟨hb, hf⟩ := h'
      obtain ⟨_, h2, h3⟩ := pickBest_spec _ _ b s hp
      subst hb
      exact ⟨h2, hf.symm, h3⟩

theorem cvarScored_mem (o : Oracles) (st : DTState) (alpha risk_weight : ℚ) (noise : ℕ → ℚ)
    (job : Job) (pl : Placements) (stage : JobStage) :
    ∀ (nodes : List Node) (idx : ℕ) (dec : PlacementDecision) (c : ℚ),
      (dec, c) ∈ cvarScored o st alpha risk_weight noise job pl stage nodes idx →
      ∃ node ∈ nodes, dec = cvarDecision o stage node ∧
        ¬(0 < stage.compute.gpu_vram_gb ∧
            node.hardware.gpu_vram_gb < (stage.compute.gpu_vram_gb : ℚ)) := by
  intro nodes
  induction nodes with
  | nil => intro idx dec c h; simp [cvarScored] at h
  | cons n rest ih =>
      intro idx dec c h
      simp only [cvarScored] at h
      by_cases hg : 0 < stage.compute.gpu_vram_gb ∧
          n.hardware.gpu_vram_gb < (stage.compute.gpu_vram_gb : ℚ)
      · rw [if_pos hg] at h
        obtain ⟨node, hn, hd⟩ := ih idx dec c h
        exact ⟨node, List.mem_cons_of_mem _ hn, hd⟩
      · rw [if_neg hg] at h
        rcases List.mem_cons.mp h with he | h
        · rw [Prod.mk.injEq] at he
          exact ⟨n, List.mem_cons_self _ _, he.1, hg⟩
        · obtain ⟨node, hn, hd⟩ := ih _ dec c h
          exact ⟨node, List.mem_cons_of_mem _ hn, hd⟩

theorem cvarSelectStage_mem (o : Oracles) (st : DTState) (alpha risk_weight : ℚ)
    (noise : ℕ → ℚ) (job : Job) (pl : Placements) (stage : JobStage) (idx : ℕ)
    (dec : PlacementDecision) (idx' : ℕ)
    (h : cvarSelectStage o st alpha risk_weight noise job pl stage idx = (some dec, idx')) :
    ∃ node ∈ cvarCandidateNodes st stage, dec = cvarDecision o stage node ∧
      ¬(0 < stage.compute.gpu_vram_gb ∧
          node.hardware.gpu_vram_gb < (stage.compute.gpu_vram_gb : ℚ)) := by
  unfold cvarSelectStage at h
  rw [Prod.mk.injEq] at h
  obtain ⟨h1, _⟩ := h
  obtain ⟨⟨d, c⟩, hmin, hfst⟩ := Option.map_eq_some'.mp h1
  obtain ⟨hmem, _⟩ := pickMinStrict_spec _ d c hmin
  cases hfst
  exact cvarScored_mem o st alpha risk_weight noise job pl stage _ idx d c hmem

/-! ### Place-loop invariants -/

theorem resilientPlaceAux_ok (o : Oracles) (st : DTState) (w : ResilientWeights) (job : Job) :
    ∀ (stages : List JobStage) (pl : Placements) (prev : List (String × Node)),
      (∀ x ∈ stages, x ∈ job.stages) →
      (∀ sid dec, dictLookup sid pl = some dec → stagePlacedOk st job sid dec) →
      ∀ sid dec, dictLookup sid (resilientPlaceAux o st w job stages pl prev) = some dec →
        stagePlacedOk st job sid dec := by
  intro stages
  induction stages with
  | nil => intro pl prev _ hinv sid dec h; exact hinv sid dec h
  | cons stage rest ih =>
      intro pl prev hsub hinv sid dec h
      simp only [resilientPlaceAux] at h
      cases hs : resilientSelectStage o st w job prev stage with
      | none =>
          rw [hs] at h
          exact ih _ _ (fun x hx => hsub x (List.mem_cons_of_mem _ hx)) hinv sid dec h
      | some p =>
          obtain ⟨node, fmt⟩ := p
          rw [hs] at h
          refine ih _ _ (fun x hx => hsub x (List.mem_cons_of_mem _ hx)) ?_ sid dec h
          intro sid' dec' h'
          rw [dictLookup_dictInsert] at h'
          by_cases he : stage.id = sid'
          · rw [if_pos he] at h'
            cases h'
            obtain ⟨hmem, _, _⟩ := resilientSelectStage_mem o st w job prev stage node fmt hs
            obtain ⟨hn, ha, hg, _, _⟩ := resilientCandidate_props st stage node hmem
            exact ⟨stage, hsub stage (List.mem_cons_self _ _), he, node, hn, ha, hg, rfl⟩
          · rw [if_neg he] at h'
            exact hinv sid' dec' h'

theorem cvarPlaceAux_ok (o : Oracles) (st : DTState) (alpha risk_weight : ℚ)
    (noise : ℕ → ℚ) (job : Job) :
    ∀ (stages : List JobStage) (pl : Placements) (idx : ℕ),
      (∀ x ∈ stages, x ∈ job.stages) →
      (∀ sid dec, dictLookup sid pl = some dec → stagePlacedOk st job sid dec) →
      ∀ sid dec,
        dictLookup sid (cvarPlaceAux o st alpha risk_weight noise job stages pl idx) = some dec →
        stagePlacedOk st job sid dec := by
  intro stages
  induction stages with
  | nil => intro pl idx _ hinv sid dec h; exact hinv sid dec h
  | cons stage rest ih =>
      intro pl idx hsub hinv sid dec h
      simp only [cvarPlaceAux] at h
      cases hs : cvarSelectStage o st alpha risk_weight noise job pl stage idx with
      | mk best idx' =>
          cases best with
          | none =>
              rw [hs] at h
              exact ih _ _ (fun x hx => hsub x (List.mem_cons_of_mem _ hx)) hinv sid dec h
          | some d =>
              rw [hs] at h
              refine ih _ _ (fun x hx => hsub x (List.mem_cons_of_mem _ hx)) ?_ sid dec h
              intro sid' dec' h'
              rw [dictLookup_dictInsert] at h'
              by_cases he : stage.id = sid'
              · rw [if_pos he] at h'
                cases h'
                obtain ⟨node, hmem, hd, hgok⟩ :=
                  cvarSelectStage_mem o st alpha risk_weight noise job pl stage idx d idx' hs
                obtain ⟨hn, ha⟩ := (cvarCandidate_props st stage node).mp hmem
                refine ⟨stage, hsub stage (List.mem_cons_self _ _), he, node, hn, ha, ?_, ?_⟩
                · intro hgpu
                  by_contra hlt
                  exact hgok ⟨hgpu, not_le.mp hlt⟩
                · rw [hd]; rfl
              · rw [if_neg he] at h'
                exact hinv sid' dec' h'

/-! ### Claim theorems -/

/-- C2: every placement decision returned by the resilient or CVaR
policy's `place` references a node that is available in the state
snapshot, and when the stage requires GPU VRAM that node offers at
least as much. -/
theorem placements_reference_valid_nodes :
    (∀ (o : Oracles) (st : DTState) (w : ResilientWeights) (job : Job)
        (sid : String) (dec : PlacementDecision),
        dictLookup sid (resilientPlace o st w job) = some dec → stagePlacedOk st job sid dec) ∧
    (∀ (o : Oracles) (st : DTState) (alpha risk_weight : ℚ) (noise : ℕ → ℚ) (job : Job)
        (sid : String) (dec : PlacementDecision),
        dictLookup sid (cvarPlace o st alpha risk_weight noise job) = some dec →
          stagePlacedOk st job sid dec) := by
  constructor
  · intro o st w job sid dec h
    exact resilientPlaceAux_ok o st w job job.stages [] [] (fun x hx => hx)
      (by intro sid' dec' h'; cases h') sid dec h
  · intro o st alpha risk_weight noise job sid dec h
    exact cvarPlaceAux_ok o st alpha risk_weight noise job job.stages [] 0 (fun x hx => hx)
      (by intro sid' dec' h'; cases h') sid dec h

/-- Witness for C2: on the two-node fixture both policies place stage
`s1` on the available node `n1`, which satisfies the (trivial) GPU
requirement. -/
theorem placements_reference_valid_nodes_witness :
    (dictLookup "s1" (resilientPlace oraclesZero stTwoNodes defaultResilientWeights jobTwoStage) =
        some ⟨"s1", "n1", "native"⟩ ∧
      stagePlacedOk stTwoNodes jobTwoStage "s1" ⟨"s1", "n1", "native"⟩) ∧
    (dictLookup "s1" (cvarPlace oraclesZero stTwoNodes (95/100) (6/10) (fun _ => 1) jobTwoStage) =
        some ⟨"s1", "n1", "native"⟩ ∧
      stagePlacedOk stTwoNodes jobTwoStage "s1" ⟨"s1", "n1", "native"⟩) := by
  refine ⟨⟨by with_unfolding_all rfl, ?_⟩, ⟨by with_unfolding_all rfl, ?_⟩⟩
  · exact placements_reference_valid_nodes.1 oraclesZero stTwoNodes defaultResilientWeights
      jobTwoStage "s1" ⟨"s1", "n1", "native"⟩ (by with_unfolding_all rfl)
  · exact placements_reference_valid_nodes.2 oraclesZero stTwoNodes (95/100) (6/10)
      (fun _ => 1) jobTwoStage "s1" ⟨"s1", "n1", "native"⟩ (by with_unfolding_all rfl)

/-- C3: the CVaR policy is deterministic in the seed: two invocations on
the same job against the same state snapshot whose RNGs produce the same
draw stream (as a fixed seed does) yield identical placement mappings. -/
theorem cvar_place_deterministic (o : Oracles) (st : DTState) (alpha risk_weight : ℚ)
    (noise1 noise2 : ℕ → ℚ) (job : Job) (h : ∀ i, noise1 i = noise2 i) :
    cvarPlace o st alpha risk_weight noise1 job = cvarPlace o st alpha risk_weight noise2 job := by
  have he : noise1 = noise2 := funext h
  rw [he]

/-- Witness for C3 at a concrete seed stream and the two-node fixture. -/
theorem cvar_place_deterministic_witness :
    (∀ i : ℕ, (fun k : ℕ => (1 : ℚ) + k) i = (fun k : ℕ => (1 : ℚ) + k) i) ∧
      cvarPlace oraclesZero stTwoNodes (95/100) (6/10) (fun k => (1 : ℚ) + k) jobTwoStage =
        cvarPlace oraclesZero stTwoNodes (95/100) (6/10) (fun k => (1 : ℚ) + k) jobTwoStage :=
  ⟨fun _ => rfl,
    cvar_place_deterministic oraclesZero stTwoNodes (95/100) (6/10) _ _ jobTwoStage
      (fun _ => rfl)⟩

/-- C5: the resilient candidate set keeps exactly the available nodes
passing the GPU gate and the allocatable cpu/mem hard gates, while the
CVaR candidate set is exactly the available nodes, with no allocatable
gate. -/
theorem candidate_gates (st : DTState) (stage : JobStage) (n : Node) :
    (n ∈ resilientCandidateNodes st stage ↔
      n ∈ st.nodes ∧ n.available = true ∧
        (0 < stage.compute.gpu_vram_gb → (stage.compute.gpu_vram_gb : ℚ) ≤ n.hardware.gpu_vram_gb) ∧
        (stage.compute.cpu : ℚ) ≤ n.k8s.allocatable_cpu ∧
        (stage.compute.mem_gb : ℚ) ≤ n.k8s.allocatable_mem_gb) ∧
    (n ∈ cvarCandidateNodes st stage ↔ n ∈ st.nodes ∧ n.available = true) := by
  refine ⟨⟨fun h => resilientCandidate_props st stage n h, fun h => ?_⟩,
    cvarCandidate_props st stage n⟩
  exact resilientCandidate_intro st stage n h.1 h.2.1 h.2.2.1 h.2.2.2.1 h.2.2.2.2

/-- C6: the resilient weights are normalised to sum to 1 at
construction; each candidate's score is
`w_capacity·capacity_fit + w_resiliency·resiliency +
w_utilization·utilization_headroom − 0.001·latency_ms` with
`capacity_fit = clamp01 (min (1 − cpu/alloc_cpu) (1 − mem/alloc_mem))`
and `utilization_headroom = 1 − max(cpu_util, mem_util)/100`; and the
candidate maximising this composite is the one placed. -/
theorem resilient_composite_formula :
    (∀ cw rw uw : ℚ, cw + rw + uw ≠ 0 →
      (resilientNormWeights cw rw uw).capacity_weight
        + (resilientNormWeights cw rw uw).resiliency_weight
        + (resilientNormWeights cw rw uw).utilization_weight = 1) ∧
    (∀ (o : Oracles) (st : DTState) (w : ResilientWeights) (job : Job) (stage : JobStage)
        (prev : List (String × Node)) (node : Node) (t : Telemetry),
      node.tel = some t → 0 ≤ t.cpu_util → t.cpu_util ≤ 100 →
      0 ≤ t.mem_util → t.mem_util ≤ 100 →
      0 < node.k8s.allocatable_cpu → 0 < node.k8s.allocatable_mem_gb →
      0 ≤ stage.compute.cpu → 0 ≤ stage.compute.mem_gb →
      resilientComposite o st w job stage prev node =
        w.capacity_weight *
            clamp01 (min (1 - (stage.compute.cpu : ℚ) / node.k8s.allocatable_cpu)
              (1 - (stage.compute.mem_gb : ℚ) / node.k8s.allocatable_mem_gb))
          + w.resiliency_weight * o.resiliency node.name
          + w.utilization_weight * (1 - max t.cpu_util t.mem_util / 100)
          - (1/1000) *
              resilientStageLatency o st job stage prev node
                (o.sim.choose_exec_format stage node)) ∧
    (∀ (o : Oracles) (st : DTState) (w : ResilientWeights) (job : Job)
        (prev : List (String × Node)) (stage : JobStage) (node : Node) (fmt : String),
      resilientSelectStage o st w job prev stage = some (node, fmt) →
        node ∈ resilientCandidateNodes st stage ∧
          ∀ c ∈ resilientCandidateNodes st stage,
            resilientComposite o st w job stage prev c ≤
              resilientComposite o st w job stage prev node) := by
  refine ⟨?_, ?_, ?_⟩
  · intro cw rw uw htot
    unfold resilientNormWeights
    by_cases h1 : cw + rw + uw = 1
    · simp [h1]
    · rw [if_neg h1]
      field_simp
  · intro o st w job stage prev node t htel hcu0 hcu1 hmu0 hmu1 hac ham hcpu hmem
    have hcap : score_capacity_fit stage node =
        clamp01 (min (1 - (stage.compute.cpu : ℚ) / node.k8s.allocatable_cpu)
          (1 - (stage.compute.mem_gb : ℚ) / node.k8s.allocatable_mem_gb)) := by
      unfold score_capacity_fit clamp01
      rw [if_neg (by push_neg; exact ⟨hac, ham⟩)]
      have hA : (1 - (stage.compute.cpu : ℚ) / node.k8s.allocatable_cpu) ≤ 1 := by
        have : 0 ≤ (stage.compute.cpu : ℚ) / node.k8s.allocatable_cpu :=
          div_nonneg (by exact_mod_cast hcpu) hac.le
        linarith
      have hmin : min (1 - (stage.compute.cpu : ℚ) / node.k8s.allocatable_cpu)
          (1 - (stage.compute.mem_gb : ℚ) / node.k8s.allocatable_mem_gb) ≤ 1 :=
        le_trans (min_le_left _ _) hA
      rw [min_eq_right hmin]
    have hutil : utilization_score node = 1 - max t.cpu_util t.mem_util / 100 := by
      unfold utilization_score
      rw [htel]
      have hle : max t.cpu_util t.mem_util / 100 ≤ 1 := by
        rw [div_le_one (by norm_num)]
        exact max_le hcu1 hmu1
      simp only []
      rw [max_eq_right (by linarith)]
    unfold resilientComposite
    rw [hcap, hutil]
  · intro o st w job prev stage node fmt h
    obtain ⟨h1, _, h3⟩ := resilientSelectStage_mem o st w job prev stage node fmt h
    exact ⟨h1, h3⟩

/-- Witness for C6: the default weights normalise to sum 1; the formula
holds on the telemetry node; and on the two-node fixture the selected
node `n1` maximises the composite. -/
theorem resilient_composite_formula_witness :
    ((3/10 : ℚ) + 5/10 + 2/10 ≠ 0 ∧
      (resilientNormWeights (3/10) (5/10) (2/10)).capacity_weight
        + (resilientNormWeights (3/10) (5/10) (2/10)).resiliency_weight
        + (resilientNormWeights (3/10) (5/10) (2/10)).utilization_weight = 1) ∧
    (nodeTel.tel = some ⟨50, 30⟩ ∧
      resilientComposite oraclesZero stTwoNodes defaultResilientWeights jobOneStage
          (stageZero "s1") [] nodeTel =
        defaultResilientWeights.capacity_weight *
            clamp01 (min (1 - ((stageZero "s1").compute.cpu : ℚ) / nodeTel.k8s.allocatable_cpu)
              (1 - ((stageZero "s1").compute.mem_gb : ℚ) / nodeTel.k8s.allocatable_mem_gb))
          + defaultResilientWeights.resiliency_weight * oraclesZero.resiliency nodeTel.name
          + defaultResilientWeights.utilization_weight * (1 - max (50 : ℚ) 30 / 100)
          - (1/1000) *
              resilientStageLatency oraclesZero stTwoNodes jobOneStage (stageZero "s1") [] nodeTel
                (oraclesZero.sim.choose_exec_format (stageZero "s1") nodeTel)) ∧
    (resilientSelectStage oraclesZero stTwoNodes defaultResilientWeights jobOneStage []
        (stageZero "s1") = some (mkNode "n1" true 0 4 8, "native") ∧
      ∀ c ∈ resilientCandidateNodes stTwoNodes (stageZero "s1"),
        resilientComposite oraclesZero stTwoNodes defaultResilientWeights jobOneStage
            (stageZero "s1") [] c ≤
          resilientComposite oraclesZero stTwoNodes defaultResilientWeights jobOneStage
            (stageZero "s1") [] (mkNode "n1" true 0 4 8)) := by
  refine ⟨⟨by norm_num, resilient_composite_formula.1 (3/10) (5/10) (2/10) (by norm_num)⟩,
    ⟨rfl, resilient_composite_formula.2.1 oraclesZero stTwoNodes defaultResilientWeights
      jobOneStage (stageZero "s1") [] nodeTel ⟨50, 30⟩ rfl (by norm_num) (by norm_num)
      (by norm_num) (by norm_num) (by norm_num [nodeTel]) (by norm_num [nodeTel])
      (by norm_num [stageZero]) (by norm_num [stageZero])⟩,
    by with_unfolding_all rfl,
    (resilient_composite_formula.2.2 oraclesZero stTwoNodes defaultResilientWeights jobOneStage
      [] (stageZero "s1") (mkNode "n1" true 0 4 8) "native" (by with_unfolding_all rfl)).2⟩

/-! ### Quantile lemmas -/

theorem getD_zero_mem (l : List ℚ) (h : l ≠ []) : l.getD 0 0 ∈ l := by
  cases l with
  | nil => exact absurd rfl h
  | cons a t => exact List.mem_cons_self _ _

theorem getD_last_mem (l : List ℚ) (h : l ≠ []) : l.getD (l.length - 1) 0 ∈ l := by
  have hlt : l.length - 1 < l.length := by
    cases l with
    | nil => exact absurd rfl h
    | cons a t => simp
  rw [List.getD_eq_getElem _ _ hlt]
  exact List.getElem_mem _

theorem sorted_getD_zero_le (l : List ℚ) (hs : l.Sorted (· ≤ ·)) :
    ∀ x ∈ l, l.getD 0 0 ≤ x := by
  cases l with
  | nil => intro x hx; cases hx
  | cons a t =>
      intro x hx
      rcases List.mem_cons.mp hx with rfl | hx
      · exact le_refl _
      · exact List.rel_of_sorted_cons hs x hx

theorem sorted_le_getD_last (l : List ℚ) (hs : l.Sorted (· ≤ ·)) :
    ∀ x ∈ l, x ≤ l.getD (l.length - 1) 0 := by
  induction l with
  | nil => intro x hx; cases hx
  | cons a t ih =>
      intro x hx
      cases t with
      | nil =>
          rcases List.mem_cons.mp hx with rfl | hx
          · exact le_refl _
          · cases hx
      | cons b t' =>
          have hlen : (a :: b :: t').length - 1 = t'.length + 1 := by simp
          rw [hlen, List.getD_cons_succ]
          have hlen2 : (b :: t').length - 1 = t'.length := by simp
          have hmem : (b :: t').getD t'.length 0 ∈ b :: t' := by
            have := getD_last_mem (b :: t') (by simp)
            rwa [hlen2] at this
          rcases List.mem_cons.mp hx with rfl | hx
          · exact List.rel_of_sorted_cons hs _ hmem
          · have := ih hs.of_cons x hx
            rwa [hlen2] at this

theorem npQuantile_one (xs : List ℚ) (h : xs ≠ []) :
    npQuantile xs 1 =
      (List.insertionSort (· ≤ ·) xs).getD ((List.insertionSort (· ≤ ·) xs).length - 1) 0 := by
  have hperm := List.perm_insertionSort (α := ℚ) (· ≤ ·) xs
  cases hsort : List.insertionSort (· ≤ ·) xs with
  | nil =>
      rw [hsort] at hperm
      exact absurd hperm.symm.eq_nil h
  | cons a t =>
      have hlen1 : 1 ≤ (a :: t).length := by simp
      simp only [npQuantile, hsort]
      have hcast : (1 : ℚ) * (((a :: t).length : ℚ) - 1) = (((a :: t).length - 1 : ℕ) : ℚ) := by
        rw [one_mul, Nat.cast_sub hlen1, Nat.cast_one]
      rw [hcast, Int.floor_natCast, Int.toNat_natCast, Int.cast_natCast, sub_self, zero_mul,
        add_zero]

theorem npQuantile_zero (xs : List ℚ) (h : xs ≠ []) :
    npQuantile xs 0 = (List.insertionSort (· ≤ ·) xs).getD 0 0 := by
  have hperm := List.perm_insertionSort (α := ℚ) (· ≤ ·) xs
  cases hsort : List.insertionSort (· ≤ ·) xs with
  | nil =>
      rw [hsort] at hperm
      exact absurd hperm.symm.eq_nil h
  | cons a t =>
      simp only [npQuantile, hsort]
      rw [zero_mul, Int.floor_zero, Int.toNat_zero]
      push_cast
      rw [sub_self, zero_mul, add_zero]

theorem cvarOf_one (xs : List ℚ) (h : xs ≠ []) :
    cvarOf 1 xs ∈ xs ∧ ∀ x ∈ xs, x ≤ cvarOf 1 xs := by
  have hperm := List.perm_insertionSort (α := ℚ) (· ≤ ·) xs
  have hsorted := List.sorted_insertionSort (α := ℚ) (· ≤ ·) xs
  set s := List.insertionSort (· ≤ ·) xs with hs
  have hsne : s ≠ [] := fun hnil => h ((hnil ▸ hperm).symm.eq_nil)
  set q := s.getD (s.length - 1) 0 with hqdef
  have hq : npQuantile xs 1 = q := npQuantile_one xs h
  have hqmem : q ∈ xs := hperm.mem_iff.mp (getD_last_mem s hsne)
  have hmax : ∀ x ∈ xs, x ≤ q := fun x hx =>
    sorted_le_getD_last s hsorted x (hperm.mem_iff.mpr hx)
  have hqin : q ∈ xs.filter (fun v => decide (q ≤ v)) :=
    List.mem_filter.mpr ⟨hqmem, by simp⟩
  have htne : xs.filter (fun v => decide (q ≤ v)) ≠ [] := fun hnil => by
    rw [hnil] at hqin; cases hqin
  have hconst : ∀ x ∈ xs.filter (fun v => decide (q ≤ v)), x = q := by
    intro x hx
    obtain ⟨hx1, hx2⟩ := List.mem_filter.mp hx
    exact le_antisymm (hmax x hx1) (of_decide_eq_true hx2)
  have hsum := List.sum_eq_card_nsmul _ q hconst
  have hcv : cvarOf 1 xs = q := by
    simp only [cvarOf, hq]
    rw [if_neg (by simpa [List.isEmpty_iff] using htne)]
    rw [hsum, nsmul_eq_mul, mul_comm, mul_div_assoc]
    have hlenne : ((xs.filter (fun v => decide (q ≤ v))).length : ℚ) ≠ 0 :=
      Nat.cast_ne_zero.mpr (List.length_pos.mpr htne).ne'
    rw [div_self hlenne, mul_one]
  rw [hcv]
  exact ⟨hqmem, hmax⟩

theorem cvarOf_zero (xs : List ℚ) (h : xs ≠ []) :
    cvarOf 0 xs = xs.sum / (xs.length : ℚ) := by
  have hperm := List.perm_insertionSort (α := ℚ) (· ≤ ·) xs
  have hsorted := List.sorted_insertionSort (α := ℚ) (· ≤ ·) xs
  set s := List.insertionSort (· ≤ ·) xs with hs
  have hq : npQuantile xs 0 = s.getD 0 0 := npQuantile_zero xs h
  have hmin : ∀ x ∈ xs, s.getD 0 0 ≤ x := fun x hx =>
    sorted_getD_zero_le s hsorted x (hperm.mem_iff.mpr hx)
  simp only [cvarOf, hq]
  have hfull : xs.filter (fun v => decide (s.getD 0 0 ≤ v)) = xs :=
    List.filter_eq_self.mpr fun a ha => decide_eq_true (hmin a ha)
  rw [hfull, if_neg (by simpa [List.isEmpty_iff] using h)]

theorem cvarScored_cost (o : Oracles) (st : DTState) (alpha risk_weight : ℚ) (noise : ℕ → ℚ)
    (job : Job) (pl : Placements) (stage : JobStage) :
    ∀ (nodes : List Node) (idx : ℕ) (dec : PlacementDecision) (c : ℚ),
      (dec, c) ∈ cvarScored o st alpha risk_weight noise job pl stage nodes idx →
      ∃ node ∈ nodes, ∃ j : ℕ, dec = cvarDecision o stage node ∧
        c = cvarSampleCost o st alpha noise j job
              (dictInsert stage.id (cvarDecision o stage node) pl) *
            (1 + risk_weight * (1 - o.resiliency node.name)) := by
  intro nodes
  induction nodes with
  | nil => intro idx dec c h; simp [cvarScored] at h
  | cons n rest ih =>
      intro idx dec c h
      simp only [cvarScored] at h
      by_cases hg : 0 < stage.compute.gpu_vram_gb ∧
          n.hardware.gpu_vram_gb < (stage.compute.gpu_vram_gb : ℚ)
      · rw [if_pos hg] at h
        obtain ⟨node, hn, j, hd, hc⟩ := ih idx dec c h
        exact ⟨node, List.mem_cons_of_mem _ hn, j, hd, hc⟩
      · rw [if_neg hg] at h
        rcases List.mem_cons.mp h with he | h
        · rw [Prod.mk.injEq] at he
          exact ⟨n, List.mem_cons_self _ _, idx, he.1, he.2⟩
        · obtain ⟨node, hn, j, hd, hc⟩ := ih _ dec c h
          exact ⟨node, List.mem_cons_of_mem _ hn, j, hd, hc⟩

/-- C7: the CVaR tail cost is computed from 16 multiplicative noise
samples of `(plan latency + origin latency)`; each scored candidate
carries `CVaR · (1 + risk_weight · (1 − resiliency(node)))`; the
candidate minimising the adjusted cost is the one placed; `alpha = 1`
makes the tail statistic the maximum sample and `alpha = 0` the mean of
all samples. -/
theorem cvar_tail_cost_formula :
    (∀ (o : Oracles) (st : DTState) (alpha : ℚ) (noise : ℕ → ℚ) (idx : ℕ)
        (job : Job) (pl : Placements),
      cvarSampleCost o st alpha noise idx job pl =
        cvarOf alpha ((List.range 16).map fun k =>
          ((o.sim.score_plan job pl).latency_ms + cvarOriginLat o st job pl) * noise (idx + k))) ∧
    (∀ (o : Oracles) (st : DTState) (alpha risk_weight : ℚ) (noise : ℕ → ℚ) (job : Job)
        (pl : Placements) (stage : JobStage) (nodes : List Node) (idx : ℕ)
        (dec : PlacementDecision) (c : ℚ),
      (dec, c) ∈ cvarScored o st alpha risk_weight noise job pl stage nodes idx →
        ∃ node ∈ nodes, ∃ j : ℕ, dec = cvarDecision o stage node ∧
          c = cvarSampleCost o st alpha noise j job
                (dictInsert stage.id (cvarDecision o stage node) pl) *
              (1 + risk_weight * (1 - o.resiliency node.name))) ∧
    (∀ (o : Oracles) (st : DTState) (alpha risk_weight : ℚ) (noise : ℕ → ℚ) (job : Job)
        (pl : Placements) (stage : JobStage) (idx : ℕ) (dec : PlacementDecision) (idx' : ℕ),
      cvarSelectStage o st alpha risk_weight noise job pl stage idx = (some dec, idx') →
        ∃ c, (dec, c) ∈ cvarScored o st alpha risk_weight noise job pl stage
              (cvarCandidateNodes st stage) idx ∧
          ∀ p ∈ cvarScored o st alpha risk_weight noise job pl stage
              (cvarCandidateNodes st stage) idx, c ≤ p.2) ∧
    (∀ samples : List ℚ, samples ≠ [] →
      cvarOf 1 samples ∈ samples ∧ ∀ x ∈ samples, x ≤ cvarOf 1 samples) ∧
    (∀ samples : List ℚ, samples ≠ [] →
      cvarOf 0 samples = samples.sum / (samples.length : ℚ)) := by
  refine ⟨fun _ _ _ _ _ _ _ => rfl, cvarScored_cost, ?_, cvarOf_one, cvarOf_zero⟩
  intro o st alpha risk_weight noise job pl stage idx dec idx' h
  unfold cvarSelectStage at h
  rw [Prod.mk.injEq] at h
  obtain ⟨h1, _⟩ := h
  obtain ⟨⟨d, c⟩, hmin, hfst⟩ := Option.map_eq_some'.mp h1
  obtain ⟨hmem, hle⟩ := pickMinStrict_spec _ d c hmin
  cases hfst
  exact ⟨c, hmem, hle⟩

set_option maxHeartbeats 3200000 in
/-- Witness for C7: the concrete selection on the two-node fixture and
the endpoint laws at the sample list `[3, 1, 2]`. -/
theorem cvar_tail_cost_formula_witness :
    (cvarSelectStage oraclesZero stTwoNodes (95/100) (6/10) (fun _ => 1) jobOneStage []
        (stageZero "s1") 0 = (some ⟨"s1", "n1", "native"⟩, 32) ∧
      ∃ c, (⟨"s1", "n1", "native"⟩, c) ∈ cvarScored oraclesZero stTwoNodes (95/100) (6/10)
            (fun _ => 1) jobOneStage [] (stageZero "s1")
            (cvarCandidateNodes stTwoNodes (stageZero "s1")) 0 ∧
        ∀ p ∈ cvarScored oraclesZero stTwoNodes (95/100) (6/10) (fun _ => 1) jobOneStage []
            (stageZero "s1") (cvarCandidateNodes stTwoNodes (stageZero "s1")) 0, c ≤ p.2) ∧
    (([3, 1, 2] : List ℚ) ≠ [] ∧
      cvarOf 1 [3, 1, 2] ∈ ([3, 1, 2] : List ℚ) ∧
        ∀ x ∈ ([3, 1, 2] : List ℚ), x ≤ cvarOf 1 [3, 1, 2]) ∧
    (([3, 1, 2] : List ℚ) ≠ [] ∧
      cvarOf 0 [3, 1, 2] = ([3, 1, 2] : List ℚ).sum / (([3, 1, 2] : List ℚ).length : ℚ)) := by
  refine ⟨⟨by with_unfolding_all rfl, ?_⟩, ⟨by simp, ?_⟩, ⟨by simp, ?_⟩⟩
  · exact cvar_tail_cost_formula.2.2.1 oraclesZero stTwoNodes (95/100) (6/10) (fun _ => 1)
      jobOneStage [] (stageZero "s1") 0 ⟨"s1", "n1", "native"⟩ 32 (by with_unfolding_all rfl)
  · exact cvar_tail_cost_formula.2.2.2.1 [3, 1, 2] (by simp)
  · exact cvar_tail_cost_formula.2.2.2.2 [3, 1, 2] (by simp)

/-- Counterexample for C8: on a two-root-stage job with an origin, the
resilient policy adds the 500 ms origin delay to the latency of the
*second* stage (which has no predecessor), although the claim says only
the first stage carries an origin-delay term. -/
theorem origin_latency_second_stage_counterexample :
    jobTwoRootsOrigin.stages.get? 1 = some (stageZero "s2") ∧
    resilientStageLatency oraclesCm stOneNodeCluster jobTwoRootsOrigin (stageZero "s2") []
        (mkNode "n1" true 0 4 8) "native" = 500 ∧
    resilientPredLatency oraclesCm (stageZero "s2") [] (mkNode "n1" true 0 4 8) "native" = 0 :=
  ⟨rfl, by with_unfolding_all rfl, by with_unfolding_all rfl⟩

/-- C8 (amended): the resilient policy adds the origin delay to *every*
stage whose predecessor field is falsy (all root stages, not only the
first) whenever the job has an origin, and to no stage with a truthy
predecessor; the CVaR origin term depends only on the placement of the
job's first stage. -/
theorem origin_latency_root_stages :
    (∀ (o : Oracles) (st : DTState) (job : Job) (stage : JobStage)
        (prev : List (String × Node)) (node : Node) (fmt : String),
      jvTruthy stage.predecessor = true ∨ job.origin = none →
        resilientStageLatency o st job stage prev node fmt =
          resilientPredLatency o stage prev node fmt) ∧
    (∀ (o : Oracles) (st : DTState) (job : Job) (stage : JobStage)
        (prev : List (String × Node)) (node : Node) (fmt : String),
      jvTruthy stage.predecessor = false → job.origin.isSome = true →
        resilientStageLatency o st job stage prev node fmt =
          resilientPredLatency o stage prev node fmt + compute_origin_latency o st job node) ∧
    (∀ (o : Oracles) (st : DTState) (job : Job) (pl pl' : Placements),
      (∀ fs, job.stages.head? = some fs → dictLookup fs.id pl = dictLookup fs.id pl') →
        cvarOriginLat o st job pl = cvarOriginLat o st job pl') := by
  refine ⟨?_, ?_, ?_⟩
  · intro o st job stage prev node fmt h
    unfold resilientStageLatency
    rcases h with h | h
    · rw [h]; simp
    · rw [h]; simp
  · intro o st job stage prev node fmt h1 h2
    unfold resilientStageLatency
    rw [h1, h2]
    simp
  · intro o st job pl pl' h
    unfold cvarOriginLat
    cases horig : job.origin with
    | none => rfl
    | some origin =>
        cases hstages : job.stages with
        | nil => rfl
        | cons fs rest =>
            dsimp only
            rw [h fs (by rw [hstages]; rfl)]

/-- Witness for C8 (amended) at the two-root fixture: the second root
stage gets the full origin delay, and a truthy-predecessor stage gets
none. -/
theorem origin_latency_root_stages_witness :
    (jvTruthy (stageZero "s2").predecessor = false ∧ jobTwoRootsOrigin.origin.isSome = true ∧
      resilientStageLatency oraclesCm stOneNodeCluster jobTwoRootsOrigin (stageZero "s2") []
          (mkNode "n1" true 0 4 8) "native" =
        resilientPredLatency oraclesCm (stageZero "s2") [] (mkNode "n1" true 0 4 8) "native" +
          compute_origin_latency oraclesCm stOneNodeCluster jobTwoRootsOrigin
            (mkNode "n1" true 0 4 8)) ∧
    (jobTwoRootsOrigin.origin = none ∨ jvTruthy (stageZero "s1").predecessor = true ∨
      cvarOriginLat oraclesCm stOneNodeCluster jobTwoRootsOrigin [] =
        cvarOriginLat oraclesCm stOneNodeCluster jobTwoRootsOrigin []) := by
  refine ⟨⟨rfl, rfl, ?_⟩, Or.inr (Or.inr ?_)⟩
  · exact origin_latency_root_stages.2.1 oraclesCm stOneNodeCluster jobTwoRootsOrigin
      (stageZero "s2") [] (mkNode "n1" true 0 4 8) "native" rfl rfl
  · exact origin_latency_root_stages.2.2 oraclesCm stOneNodeCluster jobTwoRootsOrigin [] []
      (fun _ _ => rfl)

/-- C9: a job spec that is not an object, or whose `spec.stages` list is
missing or empty, fails parsing with a `JobSpecError`, and the `/plan`
endpoint answers any body carrying such a spec with a 4xx client error
and no plan. -/
theorem bad_job_spec_rejected :
    (∀ js : JVal, (∀ kvs, js ≠ .obj kvs) →
      parse_job_spec js = .error (.jobSpecError "job spec must be an object")) ∧
    (∀ (kvs specKvs : List (String × JVal)),
      asObjKvs (pyGetOr kvs "spec" (.obj [])) = .ok specKvs →
      pyList (pyGetOr specKvs "stages" (.arr [])) = .ok [] →
      parse_job_spec (.obj kvs) =
        .error (.jobSpecError "job spec must include at least one stage")) ∧
    (∀ (seedFn : DTState → DTState) (st : DTState) (o : Oracles) (noise : ℕ → ℚ)
        (pid : String) (bkvs : List (String × JVal)) (js : JVal) (msg : String),
      pyGet bkvs "job" = js →
      parse_job_spec js = .error (.jobSpecError msg) →
      (planEndpoint seedFn st o noise pid (.obj bkvs)).isClientError = true) := by
  refine ⟨?_, ?_, ?_⟩
  · intro js h
    cases js with
    | obj kvs => exact absurd rfl (h kvs)
    | null => rfl
    | bool b => rfl
    | num q => rfl
    | str s => rfl
    | arr xs => rfl
  · intro kvs specKvs h1 h2
    simp only [parse_job_spec, bind, Except.bind, h1, h2]
    rfl
  · intro seedFn st o noise pid bkvs js msg h1 h2
    simp only [planEndpoint, h1]
    by_cases ht : jvTruthy js
    · rw [ht]
      simp only [Bool.not_true, Bool.false_eq_true, if_false, h2]
      rfl
    · rw [Bool.not_eq_true] at ht
      rw [ht]
      rfl

/-- Witness for C9: the number `5` as a job spec, and a spec with an
empty stage list, are both rejected; the endpoint answers 400. -/
theorem bad_job_spec_rejected_witness :
    ((∀ kvs, JVal.num 5 ≠ .obj kvs) ∧
      parse_job_spec (.num 5) = .error (.jobSpecError "job spec must be an object")) ∧
    (asObjKvs (pyGetOr [("spec", JVal.obj [("stages", JVal.arr [])])] "spec" (.obj [])) =
        .ok [("stages", JVal.arr [])] ∧
      pyList (pyGetOr [("stages", JVal.arr [])] "stages" (.arr [])) = .ok [] ∧
      parse_job_spec (.obj [("spec", JVal.obj [("stages", JVal.arr [])])]) =
        .error (.jobSpecError "job spec must include at least one stage")) ∧
    (pyGet [("job", JVal.num 5)] "job" = JVal.num 5 ∧
      parse_job_spec (.num 5) = .error (.jobSpecError "job spec must be an object") ∧
      (planEndpoint id stTwoNodes oraclesZero (fun _ => 1) "p"
          (.obj [("job", JVal.num 5)])).isClientError = true) := by
  refine ⟨⟨(fun kvs h => by cases h), bad_job_spec_rejected.1 (.num 5) (fun kvs h => by cases h)⟩,
    ⟨rfl, rfl, bad_job_spec_rejected.2.1 _ _ rfl rfl⟩,
    ⟨rfl, rfl, bad_job_spec_rejected.2.2 id stTwoNodes oraclesZero (fun _ => 1) "p"
      [("job", JVal.num 5)] (.num 5) "job spec must be an object" rfl rfl⟩⟩

/-! ### Parse inversion lemmas -/

theorem exceptBind_ok {α β : Type} {e : Except ParseErr α} {f : α → Except ParseErr β} {b : β}
    (h : (e >>= f) = .ok b) : ∃ a, e = .ok a ∧ f a = .ok b := by
  cases e with
  | error err => simp [Bind.bind, Except.bind] at h
  | ok a => exact ⟨a, rfl, h⟩

theorem mapM_ok_mem {α β : Type} (f : α → Except ParseErr β) :
    ∀ (l : List α) (l' : List β), l.mapM f = .ok l' → ∀ y ∈ l', ∃ x ∈ l, f x = .ok y := by
  intro l
  induction l with
  | nil =>
      intro l' h y hy
      simp only [List.mapM_nil] at h
      cases h
      cases hy
  | cons a t ih =>
      intro l' h y hy
      rw [List.mapM_cons] at h
      obtain ⟨b, h1, h⟩ := exceptBind_ok h
      obtain ⟨bs, h2, h⟩ := exceptBind_ok h
      cases h
      rcases List.mem_cons.mp hy with rfl | hy
      · exact ⟨a, List.mem_cons_self _ _, h1⟩
      · obtain ⟨x, hx, hfx⟩ := ih bs h2 y hy
        exact ⟨x, List.mem_cons_of_mem _ hx, hfx⟩

theorem parse_job_spec_ok_inv (kvs : List (String × JVal)) (job : Job)
    (h : parse_job_spec (.obj kvs) = .ok job) :
    ∃ specKvs stages_spec mkvs nameV deadline origin stages,
      asObjKvs (pyGetOr kvs "spec" (.obj [])) = .ok specKvs ∧
      pyList (pyGetOr specKvs "stages" (.arr [])) = .ok stages_spec ∧
      stages_spec ≠ [] ∧
      asObjKvs (pyGetOr kvs "metadata" (.obj [])) = .ok mkvs ∧
      require "name" mkvs = .ok nameV ∧
      pyInt (pyGetD mkvs "deadline_ms" (.num 60000)) = .ok deadline ∧
      parseOrigin mkvs = .ok origin ∧
      stages_spec.mapM parseStage = .ok stages ∧
      job = ⟨pyStr nameV, deadline, stages, origin⟩ := by
  simp only [parse_job_spec] at h
  obtain ⟨specKvs, h1, h⟩ := exceptBind_ok h
  obtain ⟨stages_spec, h2, h⟩ := exceptBind_ok h
  by_cases hemp : stages_spec.isEmpty
  · rw [if_pos hemp] at h; cases h
  · rw [if_neg hemp] at h
    obtain ⟨mkvs, h3, h⟩ := exceptBind_ok h
    obtain ⟨nameV, h4, h⟩ := exceptBind_ok h
    obtain ⟨deadline, h5, h⟩ := exceptBind_ok h
    obtain ⟨origin, h6, h⟩ := exceptBind_ok h
    obtain ⟨stages, h7, h⟩ := exceptBind_ok h
    refine ⟨specKvs, stages_spec, mkvs, nameV, deadline, origin, stages,
      h1, h2, fun hnil => hemp (by simp [hnil]), h3, h4, h5, h6, h7, ?_⟩
    cases h
    rfl

theorem parseStage_ok_inv (skvs : List (String × JVal)) (st : JobStage)
    (h : parseStage (.obj skvs) = .ok st) :
    ∃ idV ckvs qkvs cpu mem dur gpu arch formats,
      require "id" skvs = .ok idV ∧
      asObjKvs (pyGetOr skvs "compute" (.obj [])) = .ok ckvs ∧
      asObjKvs (pyGetOr skvs "constraints" (.obj [])) = .ok qkvs ∧
      pyInt (pyGetD ckvs "cpu" (.num 0)) = .ok cpu ∧
      pyInt (pyGetD ckvs "mem_gb" (.num 0)) = .ok mem ∧
      pyInt (pyGetD ckvs "duration_ms" (.num 0)) = .ok dur ∧
      pyInt (pyGetD ckvs "gpu_vram_gb" (.num 0)) = .ok gpu ∧
      pyList (pyGetD qkvs "arch" (.arr [.str "amd64"])) = .ok arch ∧
      pyList (pyGetD qkvs "formats" (.arr [.str "native"])) = .ok formats ∧
      st = ⟨pyStr idV,
        ⟨cpu, mem, dur, gpu, pyStr (pyGetD ckvs "workload_type" (.str "cpu_bound"))⟩,
        ⟨arch, formats, pyGet qkvs "data_locality", pyGet qkvs "max_latency_to_predecessor_ms"⟩,
        pyGet skvs "predecessor"⟩ := by
  simp only [parseStage] at h
  obtain ⟨skvs2, h0, h⟩ := exceptBind_ok h
  obtain ⟨idV, h1, h⟩ := exceptBind_ok h
  obtain ⟨ckvs, h2, h⟩ := exceptBind_ok h
  obtain ⟨qkvs, h3, h⟩ := exceptBind_ok h
  obtain ⟨cpu, h4, h⟩ := exceptBind_ok h
  obtain ⟨mem, h5, h⟩ := exceptBind_ok h
  obtain ⟨dur, h6, h⟩ := exceptBind_ok h
  obtain ⟨gpu, h7, h⟩ := exceptBind_ok h
  obtain ⟨arch, h8, h⟩ := exceptBind_ok h
  obtain ⟨formats, h9, hfin⟩ := exceptBind_ok h
  have hsk : skvs2 = skvs := by
    have h0' : (Except.ok skvs : Except ParseErr (List (String × JVal))) = .ok skvs2 := h0
    exact (Except.ok.inj h0').symm
  subst hsk
  refine ⟨idV, ckvs, qkvs, cpu, mem, dur, gpu, arch, formats,
    h1, h2, h3, h4, h5, h6, h7, h8, h9, ?_⟩
  exact (Except.ok.inj hfin).symm

theorem ratTrunc_ofNat (n : ℕ) : ratTrunc (n : ℚ) = n := by
  unfold ratTrunc
  rw [if_neg (not_lt.mpr (by positivity)), Int.floor_natCast]

/-- Counterexample for C10: `specEmptyOrigin` carries an origin object
(an empty one, which omits its cluster), yet the parsed job has no
origin at all instead of one with cluster `dc-core`. -/
theorem empty_origin_counterexample :
    dictLookup "origin" [("name", JVal.str "j"), ("origin", JVal.obj [])] = some (.obj []) ∧
    parse_job_spec specEmptyOrigin = .ok jobEmptyOrigin ∧
    jobEmptyOrigin.origin = none :=
  ⟨rfl, by with_unfolding_all rfl, rfl⟩

/-- C10 (amended): `parse_job_spec` fills unspecified optional fields
with fixed defaults — `deadline_ms` 60000; stage compute `cpu`,
`mem_gb`, `duration_ms`, `gpu_vram_gb` 0 and `workload_type`
`"cpu_bound"`; constraints `arch` `["amd64"]` and `formats`
`["native"]`; and a *non-empty* origin object that omits its cluster
defaults to cluster `"dc-core"` (an empty origin object is falsy and
yields a job with no origin). -/
theorem parse_defaults :
    (∀ (kvs mkvs : List (String × JVal)) (job : Job),
      parse_job_spec (.obj kvs) = .ok job →
      asObjKvs (pyGetOr kvs "metadata" (.obj [])) = .ok mkvs →
      (dictLookup "deadline_ms" mkvs = none → job.deadline_ms = 60000) ∧
        parseOrigin mkvs = .ok job.origin ∧
        ∀ st' ∈ job.stages, ∃ s, parseStage s = .ok st') ∧
    (∀ (skvs ckvs : List (String × JVal)) (st : JobStage),
      parseStage (.obj skvs) = .ok st →
      asObjKvs (pyGetOr skvs "compute" (.obj [])) = .ok ckvs →
      (dictLookup "cpu" ckvs = none → st.compute.cpu = 0) ∧
      (dictLookup "mem_gb" ckvs = none → st.compute.mem_gb = 0) ∧
      (dictLookup "duration_ms" ckvs = none → st.compute.duration_ms = 0) ∧
      (dictLookup "gpu_vram_gb" ckvs = none → st.compute.gpu_vram_gb = 0) ∧
      (dictLookup "workload_type" ckvs = none → st.compute.workload_type = "cpu_bound")) ∧
    (∀ (skvs qkvs : List (String × JVal)) (st : JobStage),
      parseStage (.obj skvs) = .ok st →
      asObjKvs (pyGetOr skvs "constraints" (.obj [])) = .ok qkvs →
      (dictLookup "arch" qkvs = none → st.constraints.arch = [.str "amd64"]) ∧
      (dictLookup "formats" qkvs = none → st.constraints.formats = [.str "native"])) ∧
    (∀ (mkvs okvs : List (String × JVal)) (orn : Option JobOrigin),
      parseOrigin mkvs = .ok orn →
      pyGetOr mkvs "origin" (.obj []) = .obj okvs → okvs ≠ [] →
      dictLookup "cluster" okvs = none →
      orn = some ⟨"dc-core", pyGet okvs "node"⟩) := by
  have hz : ratTrunc (0 : ℚ) = 0 := by
    unfold ratTrunc
    rw [if_neg (by norm_num)]
    norm_num
  have hd : ratTrunc (60000 : ℚ) = 60000 := by
    unfold ratTrunc
    rw [if_neg (by norm_num)]
    norm_num
  refine ⟨?_, ?_, ?_, ?_⟩
  · intro kvs mkvs job hp hm
    obtain ⟨specKvs, stages_spec, mkvs0, nameV, deadline, origin, stages,
      h1, h2, h3, h4, h5, h6, h7, h8, h9⟩ := parse_job_spec_ok_inv kvs job hp
    have hmk : mkvs0 = mkvs := by
      rw [hm] at h4
      exact (Except.ok.inj h4).symm
    subst hmk
    refine ⟨?_, ?_, ?_⟩
    · intro hnone
      rw [h9]
      simp only [pyGetD, hnone, Option.getD_none] at h6
      simp only [pyInt, hd] at h6
      exact (Except.ok.inj h6).symm
    · rw [h9]
      exact h7
    · intro st' hst'
      rw [h9] at hst'
      obtain ⟨x, _, hx⟩ := mapM_ok_mem parseStage stages_spec stages h8 st' hst'
      exact ⟨x, hx⟩
  · intro skvs ckvs st hp hc
    obtain ⟨idV, ckvs0, qkvs0, cpu, mem, dur, gpu, arch, formats,
      h1, h2, h3, h4, h5, h6, h7, h8, h9, h10⟩ := parseStage_ok_inv skvs st hp
    have hck : ckvs0 = ckvs := by
      rw [hc] at h2
      exact (Except.ok.inj h2).symm
    subst hck
    rw [h10]
    refine ⟨?_, ?_, ?_, ?_, ?_⟩
    · intro hnone
      simp only [pyGetD, hnone, Option.getD_none, pyInt, hz] at h4
      exact (Except.ok.inj h4).symm
    · intro hnone
      simp only [pyGetD, hnone, Option.getD_none, pyInt, hz] at h5
      exact (Except.ok.inj h5).symm
    · intro hnone
      simp only [pyGetD, hnone, Option.getD_none, pyInt, hz] at h6
      exact (Except.ok.inj h6).symm
    · intro hnone
      simp only [pyGetD, hnone, Option.getD_none, pyInt, hz] at h7
      exact (Except.ok.inj h7).symm
    · intro hnone
      simp only [pyGetD, hnone, Option.getD_none]
      rfl
  · intro skvs qkvs st hp hq
    obtain ⟨idV, ckvs0, qkvs0, cpu, mem, dur, gpu, arch, formats,
      h1, h2, h3, h4, h5, h6, h7, h8, h9, h10⟩ := parseStage_ok_inv skvs st hp
    have hqk : qkvs0 = qkvs := by
      rw [hq] at h3
      exact (Except.ok.inj h3).symm
    subst hqk
    rw [h10]
    refine ⟨?_, ?_⟩
    · intro hnone
      simp only [pyGetD, hnone, Option.getD_none, pyList] at h8
      exact (Except.ok.inj h8).symm
    · intro hnone
      simp only [pyGetD, hnone, Option.getD_none, pyList] at h9
      exact (Except.ok.inj h9).symm
  · intro mkvs okvs orn hp ho hne hcl
    simp only [parseOrigin, ho] at hp
    have htr : jvTruthy (.obj okvs) = true := by
      simp [jvTruthy, List.isEmpty_iff, hne]
    rw [htr] at hp
    simp only [if_true] at hp
    obtain ⟨okvs2, hok, hp⟩ := exceptBind_ok hp
    have : okvs2 = okvs := by
      have hok' : (Except.ok okvs : Except ParseErr (List (String × JVal))) = .ok okvs2 := hok
      exact (Except.ok.inj hok').symm
    subst this
    have := (Except.ok.inj hp).symm
    rw [this]
    simp only [pyGetD, hcl, Option.getD_none]
    rfl

/-- Witness for C10 (amended) on `specWithOrigin`: missing deadline →
60000, missing compute/constraints keys → their defaults, and the
non-empty origin object without a cluster → cluster `dc-core`. -/
theorem parse_defaults_witness :
    (parse_job_spec specWithOrigin = .ok jobWithOrigin ∧
      jobWithOrigin.deadline_ms = 60000) ∧
    (parseStage (.obj [("id", JVal.str "s")]) = .ok (stageZero "s") ∧
      (stageZero "s").compute.cpu = 0 ∧
      (stageZero "s").compute.workload_type = "cpu_bound" ∧
      (stageZero "s").constraints.arch = [.str "amd64"] ∧
      (stageZero "s").constraints.formats = [.str "native"]) ∧
    (parseOrigin metaWithOrigin = .ok (some ⟨"dc-core", JVal.str "e1"⟩) ∧
      some (JobOrigin.mk "dc-core" (JVal.str "e1")) =
        some ⟨"dc-core", pyGet [("node", JVal.str "e1")] "node"⟩) := by
  have hps : parseStage (.obj [("id", JVal.str "s")]) = .ok (stageZero "s") := by
    with_unfolding_all rfl
  have hpj : parse_job_spec specWithOrigin = .ok jobWithOrigin := by
    with_unfolding_all rfl
  refine ⟨⟨hpj, ?_⟩, ⟨hps, ?_, ?_, ?_, ?_⟩, ⟨by with_unfolding_all rfl, ?_⟩⟩
  · exact (parse_defaults.1 _ metaWithOrigin jobWithOrigin hpj rfl).1 rfl
  · exact ((parse_defaults.2.1 [("id", JVal.str "s")] [] (stageZero "s") hps rfl).1) rfl
  · exact ((parse_defaults.2.1 [("id", JVal.str "s")] [] (stageZero "s") hps rfl).2.2.2.2) rfl
  · exact ((parse_defaults.2.2.1 [("id", JVal.str "s")] [] (stageZero "s") hps rfl).1) rfl
  · exact ((parse_defaults.2.2.1 [("id", JVal.str "s")] [] (stageZero "s") hps rfl).2) rfl
  · exact parse_defaults.2.2.2 metaWithOrigin [("node", JVal.str "e1")]
      (some ⟨"dc-core", JVal.str "e1"⟩) (by with_unfolding_all rfl) rfl (by simp) rfl

/-- Counterexample for C1: with the resilient strategy on a two-stage
job whose second stage is GPU-infeasible, the policy returns a one-entry
mapping and the `/plan` endpoint still answers with a plan — it does not
fail on an incomplete (but non-empty) mapping. -/
theorem plan_incomplete_mapping_counterexample :
    planEndpoint id stTwoNodes oraclesZero (fun _ => 1) "p" bodyTwoStage =
      .ok "p" [("s1", ⟨"s1", "n1", "native"⟩)] 0 0 0 [("s1_backup", "n1")] ∧
    parse_job_spec specTwoStage = .ok jobTwoStage ∧
    jobTwoStage.stages.length = 2 :=
  ⟨by with_unfolding_all rfl, by with_unfolding_all rfl, rfl⟩

/-- C1 (amended): the `/plan` endpoint fails with the
no-feasible-placements error exactly when the policy's mapping is
*empty*; any non-empty mapping — even one smaller than the number of
stages — is returned as a plan. -/
theorem plan_fails_iff_empty_mapping (seedFn : DTState → DTState) (st0 : DTState)
    (o : Oracles) (noise : ℕ → ℚ) (pid : String) (js : JVal) (job : Job)
    (hn : st0.nodes ≠ []) (hjs : jvTruthy js = true)
    (hparse : parse_job_spec js = .ok job) :
    planEndpoint seedFn st0 o noise pid (.obj [("job", js), ("strategy", .str "resilient")]) =
      if (resilientPlace o st0 defaultResilientWeights job).isEmpty then
        .badRequest "no feasible placements found" (job.stages.map (·.id))
      else
        .ok pid (resilientPlace o st0 defaultResilientWeights job)
          (o.sim.score_plan job (resilientPlace o st0 defaultResilientWeights job)).latency_ms
          (o.sim.score_plan job (resilientPlace o st0 defaultResilientWeights job)).energy_kwh
          (o.sim.score_plan job (resilientPlace o st0 defaultResilientWeights job)).risk_score
          ((resilientPlace o st0 defaultResilientWeights job).map
            fun p => (p.1 ++ "_backup", p.2.node_name)) := by
  have hb : st0.nodes.isEmpty = false := by
    cases hh : st0.nodes with
    | nil => exact absurd hh hn
    | cons a t => rfl
  have h1 : pyGet [("job", js), ("strategy", JVal.str "resilient")] "job" = js := by
    with_unfolding_all rfl
  have h2 : pyGetD [("job", js), ("strategy", JVal.str "resilient")] "strategy"
      (.str "greedy") = .str "resilient" := by
    with_unfolding_all rfl
  have h3 : (if jvTruthy (JVal.str "resilient") then JVal.str "resilient"
      else JVal.str "greedy") = .str "resilient" := by
    with_unfolding_all rfl
  have h4 : ∀ jb : Job, selectPolicyPlace o st0 noise "resilient".toLower jb =
      resilientPlace o st0 defaultResilientWeights jb := fun _ => by
    with_unfolding_all rfl
  simp only [planEndpoint, h1, h2, hb, hjs, hparse, Bool.not_true, Bool.false_eq_true,
    if_false, h3, h4]

/-- Witness for C1 (amended) on the concrete two-stage fixture. -/
theorem plan_fails_iff_empty_mapping_witness :
    (stTwoNodes.nodes ≠ [] ∧ jvTruthy specTwoStage = true ∧
      parse_job_spec specTwoStage = .ok jobTwoStage) ∧
    planEndpoint id stTwoNodes oraclesZero (fun _ => 1) "p"
        (.obj [("job", specTwoStage), ("strategy", .str "resilient")]) =
      (if (resilientPlace oraclesZero stTwoNodes defaultResilientWeights jobTwoStage).isEmpty then
        .badRequest "no feasible placements found" (jobTwoStage.stages.map (·.id))
      else
        .ok "p" (resilientPlace oraclesZero stTwoNodes defaultResilientWeights jobTwoStage)
          (oraclesZero.sim.score_plan jobTwoStage
            (resilientPlace oraclesZero stTwoNodes defaultResilientWeights jobTwoStage)).latency_ms
          (oraclesZero.sim.score_plan jobTwoStage
            (resilientPlace oraclesZero stTwoNodes defaultResilientWeights jobTwoStage)).energy_kwh
          (oraclesZero.sim.score_plan jobTwoStage
            (resilientPlace oraclesZero stTwoNodes defaultResilientWeights jobTwoStage)).risk_score
          ((resilientPlace oraclesZero stTwoNodes defaultResilientWeights jobTwoStage).map
            fun p => (p.1 ++ "_backup", p.2.node_name))) := by
  have hparse : parse_job_spec specTwoStage = .ok jobTwoStage := by with_unfolding_all rfl
  refine ⟨⟨by simp [stTwoNodes], rfl, hparse⟩, ?_⟩
  exact plan_fails_iff_empty_mapping id stTwoNodes oraclesZero (fun _ => 1) "p"
    specTwoStage jobTwoStage (by simp [stTwoNodes]) rfl hparse

/-- Counterexample for C4: on a one-stage job with *two* eligible nodes,
the returned shadow plan names the stage's own primary node (`n1`) as
its backup even though the distinct eligible node `n2` exists. -/
theorem shadow_equals_primary_counterexample :
    planEndpoint id stTwoNodes oraclesZero (fun _ => 1) "p" bodyOneStage =
      .ok "p" [("s1", ⟨"s1", "n1", "native"⟩)] 0 0 0 [("s1_backup", "n1")] ∧
    mkNode "n2" true 0 4 8 ∈ resilientCandidateNodes stTwoNodes (stageZero "s1") ∧
    (mkNode "n2" true 0 4 8).name ≠ "n1" := by
  refine ⟨by with_unfolding_all rfl, ?_, by with_unfolding_all decide⟩
  have : resilientCandidateNodes stTwoNodes (stageZero "s1") =
      [mkNode "n1" true 0 4 8, mkNode "n2" true 0 4 8] := by
    with_unfolding_all rfl
  rw [this]
  exact List.mem_cons_of_mem _ (List.mem_cons_self _ _)

/-- C4 (amended): whenever the `/plan` endpoint returns a plan, the
shadow plan maps each stage id (suffixed `_backup`) to exactly that
stage's primary node — a backup is never distinct from the primary. -/
theorem shadow_equals_primary (seedFn : DTState → DTState) (st0 : DTState) (o : Oracles)
    (noise : ℕ → ℚ) (pid : String) (body : JVal) (pid' : String) (pl : Placements)
    (lat en rk : ℚ) (sh : List (String × String))
    (h : planEndpoint seedFn st0 o noise pid body = .ok pid' pl lat en rk sh) :
    sh = pl.map fun p => (p.1 ++ "_backup", p.2.node_name) := by
  cases body with
  | obj bkvs =>
      simp only [planEndpoint] at h
      repeat' split at h
      all_goals cases h
      all_goals rfl
  | null => cases h
  | bool b => cases h
  | num q => cases h
  | str s => cases h
  | arr xs => cases h

/-- Witness for C4 (amended) on the one-stage fixture. -/
theorem shadow_equals_primary_witness :
    planEndpoint id stTwoNodes oraclesZero (fun _ => 1) "p" bodyOneStage =
      .ok "p" [("s1", ⟨"s1", "n1", "native"⟩)] 0 0 0 [("s1_backup", "n1")] ∧
    [("s1_backup", "n1")] =
      [("s1", PlacementDecision.mk "s1" "n1" "native")].map
        fun p => (p.1 ++ "_backup", p.2.node_name) := by
  have h : planEndpoint id stTwoNodes oraclesZero (fun _ => 1) "p" bodyOneStage =
      .ok "p" [("s1", ⟨"s1", "n1", "native"⟩)] 0 0 0 [("s1_backup", "n1")] := by
    with_unfolding_all rfl
  exact ⟨h, shadow_equals_primary id stTwoNodes oraclesZero (fun _ => 1) "p" bodyOneStage
    "p" [("s1", ⟨"s1", "n1", "native"⟩)] 0 0 0 [("s1_backup", "n1")] h⟩
